import Mathlib

/-!
Verification development for the `pmagent` file-backed project-onboarding store
(`pmagent.py`).  The data layer is shallowly embedded: JSON values are an
inductive type, Python dicts are association lists with insertion-order
semantics, the file system is an explicit `Store` record, and operations that
can raise non-validation exceptions in Python (attribute/type errors on
ill-shaped documents) return `Option` / an explicit result type, with `none`
resp. `crash` standing for such an exception.
-/

set_option maxHeartbeats 1000000
set_option maxRecDepth 100000

namespace PMA

/-- JSON values as produced by Python's `json` module.  Numbers are modelled
as rationals; the only numeric value the store itself writes is the
`confidence_index`, for which the Python float arithmetic is exact enough
that the rational model agrees (see `round2`). -/
inductive Json : Type where
  | null : Json
  | bool : Bool → Json
  | num : ℚ → Json
  | str : String → Json
  | arr : List Json → Json
  | obj : List (String × Json) → Json

/-- First-occurrence lookup in an association list (Python dict lookup;
real dicts never hold a duplicate key). -/
def alookup {β : Type} : List (String × β) → String → Option β
  | [], _ => none
  | (k, v) :: rest, key => if k = key then some v else alookup rest key

/-- Python `d[key] = v`: replace the value at an existing key in place,
otherwise append the new binding at the end (dict insertion order). -/
def aset {β : Type} : List (String × β) → String → β → List (String × β)
  | [], key, v => [(key, v)]
  | (k, w) :: rest, key, v =>
    if k = key then (k, v) :: rest else (k, w) :: aset rest key v

/-- Python `d.setdefault(key, v)`. -/
def setdefault (m : List (String × Json)) (key : String) (v : Json) :
    List (String × Json) :=
  match alookup m key with
  | some _ => m
  | none => m ++ [(key, v)]

/-- Python `d.get(key, default)` on a value known to be a dict. -/
def getD (m : List (String × Json)) (key : String) (d : Json) : Json :=
  (alookup m key).getD d

/-- Python `x.get(key, default)` on an arbitrary value: an attribute error
(`none`) unless `x` is a dict. -/
def pyGet (j : Json) (key : String) (d : Json) : Option Json :=
  match j with
  | .obj m => some (getD m key d)
  | _ => none

/-- Python `len(x)`: defined on strings, lists and dicts, a type error
(`none`) otherwise. -/
def pyLen : Json → Option Nat
  | .str s => some s.length
  | .arr xs => some xs.length
  | .obj m => some m.length
  | _ => none

/-- Python truthiness `bool(x)` of a JSON value. -/
def pyBool : Json → Bool
  | .null => false
  | .bool b => b
  | .num q => q ≠ 0
  | .str s => s ≠ ""
  | .arr xs => !xs.isEmpty
  | .obj m => !m.isEmpty

/-- Python whitespace test used by `str.strip` and the regex class `\s`
(ASCII approximation of the Unicode classes; the store only ever writes
ASCII whitespace). -/
def isPySpace (c : Char) : Bool := c.isWhitespace

/-- Strip the characters satisfying `p` from both ends of a list
(Python `str.strip`). -/
def stripWhile (p : Char → Bool) (l : List Char) : List Char :=
  ((l.dropWhile p).reverse.dropWhile p).reverse

/-- Python `s.strip()` on a string. -/
def pyTrim (s : String) : String := String.mk (stripWhile isPySpace s.toList)

/-- Python `x.strip()` on an arbitrary value: an attribute error (`none`)
unless `x` is a string. -/
def pyStrip : Json → Option String
  | .str s => some (pyTrim s)
  | _ => none

/-- Embedding of `_deep_merge(a, b)` from `pmagent.py`: start from a copy of `a`; for each
key of the patch `b`, recurse when both the patch value and the current value
are dicts, otherwise store the patch value wholesale. -/
def deep_merge : List (String × Json) → List (String × Json) → List (String × Json)
  | out, [] => out
  | out, (k, .obj vb) :: rest =>
    (match alookup out k with
     | some (.obj va) => deep_merge (aset out k (.obj (deep_merge va vb))) rest
     | _ => deep_merge (aset out k (.obj vb)) rest)
  | out, (k, v) :: rest => deep_merge (aset out k v) rest

/-- The path walk of the local helper `has` in `_compute_derived`; the source
splits a dotted path string on `.`, here the parts are given directly.
At the end of the walk: a string is tested non-empty after stripping, a list
non-empty, and any other value counts as covered unless it is `None`. -/
def hasWalk : Json → List String → Bool
  | cur, [] =>
    match cur with
    | .str s => !(pyTrim s == "")
    | .arr xs => !xs.isEmpty
    | .null => false
    | _ => true
  | cur, part :: parts =>
    match cur with
    | .obj m =>
      match alookup m part with
      | some nxt => hasWalk nxt parts
      | none => false
    | _ => false

/-- Coverage point 1: `has('identity.name')`. -/
def point1 (ob : List (String × Json)) : Bool :=
  hasWalk (.obj ob) ["identity", "name"]

/-- Coverage point 2: `has('intent.problem_statement')`. -/
def point2 (ob : List (String × Json)) : Bool :=
  hasWalk (.obj ob) ["intent", "problem_statement"]

/-- Coverage point 3: `has('intent.north_star') or
len(ob.get('metrics', {}).get('primary_objectives', [])) > 0`
(the `or` short-circuits, so the right operand only runs when needed). -/
def point3 (ob : List (String × Json)) : Option Bool :=
  if hasWalk (.obj ob) ["intent", "north_star"] then some true
  else do
    let po ← pyGet (getD ob "metrics" (.obj [])) "primary_objectives" (.arr [])
    let n ← pyLen po
    pure (decide (0 < n))

/-- Coverage point 4: at least one persona `and` at least one top use case
(the `and` short-circuits after the first length test). -/
def point4 (ob : List (String × Json)) : Option Bool := do
  let pv ← pyGet (getD ob "users" (.obj [])) "personas" (.arr [])
  let np ← pyLen pv
  if np = 0 then pure false
  else do
    let uc ← pyGet (getD ob "intent" (.obj [])) "top_use_cases" (.arr [])
    let nu ← pyLen uc
    pure (decide (0 < nu))

/-- Coverage point 5: at least one milestone. -/
def point5 (ob : List (String × Json)) : Option Bool := do
  let ms ← pyGet (getD ob "delivery" (.obj [])) "milestones" (.arr [])
  let n ← pyLen ms
  pure (decide (0 < n))

/-- Coverage point 6: `any` over the four artifact tests; the list literal is
built eagerly, so all four operands are evaluated. -/
def point6 (ob : List (String × Json)) : Option Bool := do
  let a := getD ob "artifacts" (.obj [])
  let prds ← pyGet a "prds" (.arr [])
  let n1 ← pyLen prds
  let des ← pyGet a "designs" (.arr [])
  let n2 ← pyLen des
  let td ← pyGet a "tech_docs" (.arr [])
  let n3 ← pyLen td
  let ds ← pyGet a "data_schema" .null
  pure (decide (0 < n1) || decide (0 < n2) || decide (0 < n3) || pyBool ds)

/-- The six-slot `points` list of `_compute_derived`; `none` when evaluating
one of the slots raises in Python. -/
def coveragePoints (ob : List (String × Json)) : Option (List Bool) :=
  match point3 ob, point4 ob, point5 ob, point6 ob with
  | some p3, some p4, some p5, some p6 =>
    some [point1 ob, point2 ob, p3, p4, p5, p6]
  | _, _, _, _ => none

/-- Python `round(q, 2)` as exact rational rounding to hundredths.  Python rounds
floats half-to-even; the only inputs arising here are `c/6` for `c ≤ 6`,
whose hundredths are never at a tie and whose float rounding agrees with the
exact rational rounding used here. -/
def round2 (q : ℚ) : ℚ := (round (q * 100) : ℤ) / 100

/-- Embedding of `_compute_derived`: the derived dict `{confidence_index,
next_best_actions}`, `none` when the Python code would raise on an ill-shaped
document. -/
def compute_derived (ob : List (String × Json)) :
    Option (List (String × Json)) :=
  match coveragePoints ob with
  | none => none
  | some pts =>
    let covered := (pts.filter (fun p => p)).length
    let ci := round2 ((covered : ℚ) / (pts.length : ℚ))
    let nba : List String :=
      (if pts.getD 2 false then [] else
        ["Define 1–2 primary metrics tied to the North Star"]) ++
      (if pts.getD 3 false then [] else
        ["Add at least 1 persona and 1 top use case"]) ++
      (if pts.getD 4 false then [] else
        ["Draft 2–3 milestones with dates and exit criteria"]) ++
      (if pts.getD 5 false then [] else
        ["Link a PRD/design/tech doc or data schema"])
    some [("confidence_index", .num ci),
          ("next_best_actions", .arr (nba.map Json.str))]

/-- Embedding of `PMAgent._empty_onboarding()`. -/
def empty_onboarding : List (String × Json) :=
  [("identity", .obj [("name", .str ""), ("one_line", .str ""), ("owner", .obj [])]),
   ("intent", .obj [("problem_statement", .str ""), ("north_star", .str ""),
                    ("business_objectives", .arr []), ("out_of_scope", .arr []),
                    ("top_use_cases", .arr [])]),
   ("users", .obj [("personas", .arr [])]),
   ("metrics", .obj [("primary_objectives", .arr []), ("guardrails", .arr [])]),
   ("delivery", .obj [("milestones", .arr [])]),
   ("artifacts", .obj [("prds", .arr []), ("designs", .arr []),
                       ("tech_docs", .arr []), ("data_schema", .null)]),
   ("derived", .obj [("next_best_actions", .arr []), ("confidence_index", .num 0)])]

/-- Content of a file of the store: JSON that `json.loads` accepts, or an
unparsable file. -/
inductive FileContent : Type where
  | json : Json → FileContent
  | corrupt : FileContent

/-- The on-disk state `pmagent_data/projects/`: the set of project
directories and, per project id, the `project.json` and `onboarding.json`
files (a key is present exactly when the file exists). -/
structure Store : Type where
  dirs : List String
  projectFile : List (String × FileContent)
  onboardingFile : List (String × FileContent)

/-- Embedding of `PMAgent._project_dir`: `mkdir(parents=True, exist_ok=True)` for the
project's directory. -/
def project_dir (s : Store) (pid : String) : Store :=
  if pid ∈ s.dirs then s else { s with dirs := s.dirs ++ [pid] }

/-- Embedding of `PMAgent._touch_project`: read `project.json` (an unparsable or missing
file falls back to `{}`), default the `id` key, stamp `updated_at`, write it
back.  A file parsing to a non-dict makes `meta.setdefault` raise
(`none`). -/
def touch_project (s : Store) (pid : String) (now : String) : Option Store :=
  let s1 := project_dir s pid
  let meta? : Option (List (String × Json)) :=
    match alookup s1.projectFile pid with
    | some (.json (.obj m)) => some m
    | some (.json _) => none
    | some .corrupt => some []
    | none => some []
  match meta? with
  | none => none
  | some m =>
    let m1 := aset (setdefault m "id" (.str pid)) "updated_at" (.str now)
    some { s1 with projectFile := aset s1.projectFile pid (.json (.obj m1)) }

/-- Embedding of `PMAgent.get_onboarding`: ensure the project directory exists, then read
`onboarding.json`; a missing or unparsable file yields the empty default
document. -/
def get_onboarding (s : Store) (pid : String) : Store × Json :=
  let s1 := project_dir s pid
  match alookup s1.onboardingFile pid with
  | some (.json j) => (s1, j)
  | some .corrupt => (s1, .obj empty_onboarding)
  | none => (s1, .obj empty_onboarding)

/-- Embedding of `PMAgent.save_onboarding_draft`: merge the patch over the current
document, recompute `derived`, persist, touch the project.  `none` models the
Python exceptions on documents whose stored JSON is not a dict or whose shape
makes `_compute_derived` raise. -/
def save_onboarding_draft (s : Store) (pid : String)
    (patch : List (String × Json)) (now : String) :
    Option (Store × List (String × Json)) :=
  match (get_onboarding s pid).2 with
  | .obj exm =>
    let merged := deep_merge exm patch
    (match compute_derived merged with
     | some d =>
       let merged1 := aset merged "derived" (.obj d)
       let s1 := (get_onboarding s pid).1
       let s2 := { s1 with onboardingFile := aset s1.onboardingFile pid (.json (.obj merged1)) }
       (match touch_project s2 pid now with
        | some s3 => some (s3, merged1)
        | none => none)
     | none => none)
  | _ => none

/-- Outcome of `PMAgent.commit_onboarding`: success with the final store and
the returned document, the `ValueError` for missing required fields (with the
store at the moment of the raise), or any other Python exception. -/
inductive CommitResult : Type where
  | ok : Store → List (String × Json) → CommitResult
  | validationError : String → Store → CommitResult
  | crash : CommitResult

/-- Python `a or b` on JSON values (truthiness short-circuit). -/
def pyOr (a b : Json) : Json := if pyBool a then a else b

/-- Python `", ".join(missing)`. -/
def joinComma : List String → String
  | [] => ""
  | [x] => x
  | x :: y :: rest => x ++ ", " ++ joinComma (y :: rest)

/-- Embedding of `PMAgent.commit_onboarding`. -/
def commit_onboarding (s : Store) (pid : String) (now : String) : CommitResult :=
  let s1 := project_dir s pid
  let s2 := (get_onboarding s1 pid).1
  match (get_onboarding s1 pid).2 with
  | .obj ob =>
    -- validate required fields
    match (pyGet (getD ob "identity" (.obj [])) "name" (.str "")).bind pyStrip,
          (pyGet (getD ob "intent" (.obj [])) "problem_statement" (.str "")).bind pyStrip with
    | some nameT, some psT =>
      let missing : List String :=
        (if nameT = "" then ["identity.name"] else []) ++
        (if psT = "" then ["intent.problem_statement"] else [])
      if missing.isEmpty = false then
        .validationError ("Missing required: " ++ joinComma missing) s2
      else
        match compute_derived ob with
        | none => .crash
        | some d =>
          let ob1 := aset ob "derived" (.obj d)
          let s3 := { s2 with onboardingFile := aset s2.onboardingFile pid (.json (.obj ob1)) }
          -- sync summary fields to project.json
          let meta? : Option (List (String × Json)) :=
            match (alookup s3.projectFile pid : Option FileContent) with
            | some (.json (.obj m)) => some m
            | some (.json _) => none
            | some .corrupt => some [("id", .str pid)]
            | none => some [("id", .str pid)]
          match meta?,
                pyGet (getD ob "identity" (.obj [])) "name" .null,
                pyGet (getD ob "identity" (.obj [])) "one_line" .null,
                pyGet (getD ob "intent" (.obj [])) "north_star" .null with
          | some m, some nameJ, some oneLineJ, some nsJ =>
            let m1 := aset m "name" (pyOr nameJ (getD m "name" .null))
            let summary := pyOr oneLineJ (pyOr nsJ (getD m "description" (.str "")))
            let m2 := aset (aset m1 "description" summary) "updated_at" (.str now)
            .ok { s3 with projectFile := aset s3.projectFile pid (.json (.obj m2)) } ob1
          | _, _, _, _ => .crash
    | _, _ => .crash
  | _ => .crash

/-- Worker for `collapseRuns`: the flag records whether the previous
character belonged to a run being replaced. -/
def collapseRunsAux (p : Char → Bool) (r : Char) : Bool → List Char → List Char
  | _, [] => []
  | inRun, c :: cs =>
    if p c then
      (if inRun then [] else [r]) ++ collapseRunsAux p r true cs
    else c :: collapseRunsAux p r false cs

/-- Replace every maximal run of characters satisfying `p` by the single
character `r` (the substitutions `re.sub(r"\s+", "-", ·)` and
`re.sub(r"-+", "-", ·)`). -/
def collapseRuns (p : Char → Bool) (r : Char) (l : List Char) : List Char :=
  collapseRunsAux p r false l

/-- Character class `[a-z0-9\-\s]` kept by the first substitution of
`slugify` (everything else is deleted). -/
def keepChar (c : Char) : Bool :=
  ('a' ≤ c && c ≤ 'z') || ('0' ≤ c && c ≤ '9') || c = '-' || isPySpace c

/-- The four successive transformations of `slugify` before the fallback:
strip, lowercase, delete characters outside `[a-z0-9\-\s]`, replace
whitespace runs by single hyphens, collapse hyphen runs and trim hyphens. -/
def slugBody (text : String) : List Char :=
  stripWhile (fun c => c = '-')
    (collapseRuns (fun c => c = '-') '-'
      (collapseRuns isPySpace '-'
        (((stripWhile isPySpace text.toList).map Char.toLower).filter keepChar)))

/-- Embedding of `slugify` from `pmagent.py`.  The random fallback token
`f"project-{uuid4().hex[:6]}"` is modelled by passing the six uuid hex
characters as the argument `fbHex`.  `str.lower` is modelled on ASCII
letters; Python also lowercases a handful of non-ASCII letters into ASCII,
but those are deleted by the following substitution either way. -/
def slugify (text : String) (fbHex : String) : String :=
  if (slugBody text).isEmpty then "project-" ++ fbHex else String.mk (slugBody text)

/-- Embedding of `PMAgent.create_project`.  The two random draws (`slugify`'s fallback
token and the uniqueness suffix `uuid4().hex[:6]`) and the clock are passed
as arguments `fbHex`, `sufHex`, `now`. -/
def create_project (s : Store) (name desc : String)
    (fbHex sufHex now : String) : Except String (Store × List (String × Json)) :=
  if name = "" || pyTrim name = "" then .error "Project name is required"
  else
    let pid := slugify name fbHex ++ "-" ++ sufHex
    let s1 := project_dir s pid
    let meta : List (String × Json) :=
      [("id", .str pid), ("name", .str (pyTrim name)),
       ("description", .str (if desc = "" then "" else pyTrim desc)),
       ("created_at", .str now), ("updated_at", .str now)]
    let s2 := { s1 with projectFile := aset s1.projectFile pid (.json (.obj meta)) }
    let s3 :=
      if (alookup s2.onboardingFile pid).isSome then s2
      else { s2 with onboardingFile := aset s2.onboardingFile pid (.json (.obj empty_onboarding)) }
    .ok (s3, meta)

/-- Two decimal digits. -/
def d2 (a b : Char) : Option Nat :=
  if a.isDigit && b.isDigit then some ((a.toNat - 48) * 10 + (b.toNat - 48))
  else none

/-- Leap year (proleptic Gregorian, as Python's `datetime`). -/
def isLeap (y : Nat) : Bool := y % 4 = 0 && (y % 100 ≠ 0 || y % 400 = 0)

/-- Days in a month. -/
def daysInMonth (y m : Nat) : Nat :=
  if m = 2 then (if isLeap y then 29 else 28)
  else if m = 4 || m = 6 || m = 9 || m = 11 then 30
  else 31

/-- Days from 1970-01-01 to the civil date `y-m-d` (valid for `y ≥ 1`,
the full `datetime` range). -/
def daysFromCivil (y m d : Nat) : Int :=
  let y1 := if m ≤ 2 then y - 1 else y
  let era := y1 / 400
  let yoe := y1 % 400
  let doy := (153 * (if 2 < m then m - 3 else m + 9) + 2) / 5 + d - 1
  let doe := yoe * 365 + yoe / 4 - yoe / 100 + doy
  (era * 146097 + doe : Int) - 719468

/-- Python `datetime.fromisoformat(t).timestamp()` for the timestamps this store
writes: an aware `YYYY-MM-DDTHH:MM:SS±HH:MM` string, validated the way
`datetime` validates its fields, converted to Unix seconds.  Other strings —
unparsable ones (a `ValueError` in Python) as well as naive formats, whose
`timestamp()` depends on the local timezone — are `none`. -/
def parseAwareIso (t : String) : Option Int :=
  match t.toList with
  | [y1, y2, y3, y4, '-', mo1, mo2, '-', dd1, dd2, 'T',
     h1, h2, ':', mi1, mi2, ':', se1, se2, sg, o1, o2, ':', o3, o4] => do
    let yh ← d2 y1 y2
    let yl ← d2 y3 y4
    let y := yh * 100 + yl
    let mo ← d2 mo1 mo2
    let d ← d2 dd1 dd2
    let h ← d2 h1 h2
    let mi ← d2 mi1 mi2
    let se ← d2 se1 se2
    let oh ← d2 o1 o2
    let om ← d2 o3 o4
    if 1 ≤ y && 1 ≤ mo && mo ≤ 12 && 1 ≤ d && d ≤ daysInMonth y mo &&
       h ≤ 23 && mi ≤ 59 && se ≤ 59 && oh ≤ 23 && om ≤ 59 then
      let base := daysFromCivil y mo d * 86400 + (h * 3600 + mi * 60 + se : Nat)
      let off : Int := (oh * 3600 + om * 60 : Nat)
      match sg with
      | '+' => some (base - off)
      | '-' => some (base + off)
      | _ => none
    else none
  | _ => none

/-- Python `s.replace("Z", "+00:00")`: the pattern is a single character, so the
replacement is character-wise. -/
def replaceZ (t : String) : String :=
  String.mk (t.toList.flatMap (fun c => if c = 'Z' then "+00:00".toList else [c]))

/-- The sort key of `list_projects`:
`(0 - fromisoformat(updated_at default epoch).timestamp(), name default "")`.
`none` models a raise while computing the key (non-string `updated_at`, an
unparsable timestamp) and also a non-string `name`, which Python cannot
compare (we do not model the lucky case where a non-string name is never
compared). -/
def sort_key (m : List (String × Json)) : Option (Int × String) := do
  let uS ← (match getD m "updated_at" (.str "1970-01-01T00:00:00+00:00") with
            | .str t => some t
            | _ => none)
  let ts ← parseAwareIso (replaceZ uS)
  let nS ← (match getD m "name" (.str "") with
            | .str t => some t
            | _ => none)
  pure (0 - ts, nS)

/-- Lexicographic comparison of the sort keys, as Python compares the
tuples `(negated timestamp, name)`. -/
def keyLe (a b : Int × String) : Bool :=
  a.1 < b.1 || (a.1 = b.1 && a.2 ≤ b.2)

/-- Stable insertion into a `le`-sorted list: an element goes before the
first element it is `le`-related to, hence after earlier equal keys. -/
def insertSorted {α : Type} (le : α → α → Bool) (x : α) : List α → List α
  | [] => [x]
  | y :: ys => if le x y then x :: y :: ys else y :: insertSorted le x ys

/-- Stable insertion sort (Python's `list.sort` is a stable sort; on these
small lists any stable sort has the same observable behaviour). -/
def sortBy {α : Type} (le : α → α → Bool) : List α → List α
  | [] => []
  | x :: xs => insertSorted le x (sortBy le xs)

/-- Pair every list element with its sort key, keeping order; `none` if any
key computation raises (Python computes all keys before sorting). -/
def attachKeys : List (List (String × Json)) →
    Option (List ((Int × String) × List (String × Json)))
  | [] => some []
  | m :: ms =>
    match sort_key m, attachKeys ms with
    | some k, some rest => some ((k, m) :: rest)
    | _, _ => none

/-- The ascending `sorted(...glob("*/project.json"))` order: the project ids
owning a metadata file, in string order (path prefix and suffix are shared,
so paths compare as the ids do). -/
def globOrder (s : Store) : List String :=
  sortBy (fun a b => decide (a ≤ b)) ((s.projectFile.map Prod.fst).dedup)

/-- Embedding of `PMAgent.list_projects`.  Entries whose file is unparsable are skipped;
so are entries parsing to a non-dict, whose `meta.setdefault` raises inside
the same `try`.  The final sort is by `(0 - updated_at timestamp, name)`
ascending; `none` models a raise while computing a sort key. -/
def list_projects (s : Store) : Option (List (List (String × Json))) := do
  let entries := (globOrder s).filterMap (fun pid =>
    match alookup s.projectFile pid with
    | some (.json (.obj m)) => some (setdefault m "id" (.str pid))
    | _ => none)
  let keyed ← attachKeys entries
  pure ((sortBy (fun a b => keyLe a.1 b.1) keyed).map Prod.snd)

/-- The value `deep_merge` is specified to store at a patch key: the
recursive merge when both values are dicts, the wholesale patch value
otherwise. -/
def mergedValue (av : Option Json) (v : Json) : Json :=
  match v, av with
  | .obj vb, some (.obj va) => .obj (deep_merge va vb)
  | _, _ => v

/-- The characters of `uuid4().hex`. -/
def hexChar (c : Char) : Bool :=
  ('0' ≤ c && c ≤ '9') || ('a' ≤ c && c ≤ 'f')

/-- The character class `[a-z0-9-]` of a well-formed identifier. -/
def slugChar (c : Char) : Bool :=
  ('a' ≤ c && c ≤ 'z') || ('0' ≤ c && c ≤ '9') || c = '-'

/-- A small stored document used by concrete witnesses. -/
def obA : List (String × Json) :=
  [("identity", Json.obj [("name", Json.str "A")]),
   ("intent", Json.obj [("problem_statement", Json.str "B")])]

/-- The derived dict `_compute_derived` produces for `obA`. -/
def dA : List (String × Json) :=
  [("confidence_index", Json.num (33/100)),
   ("next_best_actions", Json.arr
     [Json.str "Define 1–2 primary metrics tied to the North Star",
      Json.str "Add at least 1 persona and 1 top use case",
      Json.str "Draft 2–3 milestones with dates and exit criteria",
      Json.str "Link a PRD/design/tech doc or data schema"])]

/-- The value at `k` is absent or a string. -/
def strOrAbsent (m : List (String × Json)) (k : String) : Bool :=
  match alookup m k with
  | none => true
  | some (.str _) => true
  | some _ => false

/-- The value at `k` is absent or an array. -/
def arrOrAbsent (m : List (String × Json)) (k : String) : Bool :=
  match alookup m k with
  | none => true
  | some (.arr _) => true
  | some _ => false

/-- The value at `k` is absent, or a dict satisfying `q`. -/
def objOrAbsentP (m : List (String × Json)) (k : String)
    (q : List (String × Json) → Bool) : Bool :=
  match alookup m k with
  | none => true
  | some (.obj mm) => q mm
  | some _ => false

/-- A stored onboarding document of the data-model shape, to the depth the
commit path reads it: each section is a dict (or absent), the scalar fields
read by validation and the summary sync are strings (or absent), and the
list fields read by the coverage checkpoints are arrays (or absent). -/
def oWF (ob : List (String × Json)) : Bool :=
  objOrAbsentP ob "identity" (fun idm =>
    strOrAbsent idm "name" && strOrAbsent idm "one_line") &&
  objOrAbsentP ob "intent" (fun it =>
    strOrAbsent it "problem_statement" && strOrAbsent it "north_star" &&
    arrOrAbsent it "top_use_cases") &&
  objOrAbsentP ob "users" (fun u => arrOrAbsent u "personas") &&
  objOrAbsentP ob "metrics" (fun mm => arrOrAbsent mm "primary_objectives") &&
  objOrAbsentP ob "delivery" (fun dd => arrOrAbsent dd "milestones") &&
  objOrAbsentP ob "artifacts" (fun aa =>
    arrOrAbsent aa "prds" && arrOrAbsent aa "designs" && arrOrAbsent aa "tech_docs")

/-- The project metadata file is absent, unparsable, or parses to a dict
(the shape the Project record always has). -/
def metaWF (s : Store) (pid : String) : Bool :=
  match alookup s.projectFile pid with
  | some (.json (.obj _)) => true
  | some (.json _) => false
  | _ => true

/-- The value Python's `ob.get(k1, {}).get(k2, d)` produces on a document
whose `k1` section is a dict or absent. -/
def jsonFieldD (ob : List (String × Json)) (k1 k2 : String) (d : Json) : Json :=
  match alookup ob k1 with
  | some (.obj m) => getD m k2 d
  | _ => d

/-- The string value of `ob[k1][k2]`, defaulting to `""`. -/
def strField2 (ob : List (String × Json)) (k1 k2 : String) : String :=
  match jsonFieldD ob k1 k2 (.str "") with
  | .str s => s
  | _ => ""

/-- Document for the C6 scenario: `one_line` empty, `north_star` set. -/
def obG : List (String × Json) :=
  [("identity", Json.obj [("name", Json.str "A"), ("one_line", Json.str "")]),
   ("intent", Json.obj [("problem_statement", Json.str "B"),
                        ("north_star", Json.str "Grow retention")])]

/-- Prior project metadata for the C6 scenario, with description `"old"`. -/
def mG : List (String × Json) :=
  [("id", Json.str "p"), ("name", Json.str "old-name"), ("description", Json.str "old")]

/-- Derived dict of `obG`: three checkpoints satisfied. -/
def dG : List (String × Json) :=
  [("confidence_index", Json.num (1/2)),
   ("next_best_actions", Json.arr
     [Json.str "Add at least 1 persona and 1 top use case",
      Json.str "Draft 2–3 milestones with dates and exit criteria",
      Json.str "Link a PRD/design/tech doc or data schema"])]

/-! ### Association-list lemmas -/

theorem alookup_aset_self {β : Type} (m : List (String × β)) (k : String) (v : β) :
    alookup (aset m k v) k = some v := by
  induction m with
  | nil => simp [aset, alookup]
  | cons kv rest ih =>
    obtain ⟨k0, w⟩ := kv
    by_cases h : k0 = k
    · subst h
      simp [aset, alookup]
    · simp [aset, alookup, h, ih]

theorem alookup_aset_ne {β : Type} (m : List (String × β)) (k k' : String) (v : β)
    (h : k' ≠ k) : alookup (aset m k v) k' = alookup m k' := by
  induction m with
  | nil => simp [aset, alookup, Ne.symm h]
  | cons kv rest ih =>
    obtain ⟨k0, w⟩ := kv
    by_cases h0 : k0 = k
    · subst h0
      simp [aset, alookup, Ne.symm h]
    · simp only [aset, if_neg h0, alookup, ih]

theorem getD_aset_ne (m : List (String × Json)) (k k' : String) (v d : Json)
    (h : k' ≠ k) : getD (aset m k v) k' d = getD m k' d := by
  simp [getD, alookup_aset_ne m k k' v h]

/-- Unfolding `deep_merge` at a non-dict patch value. -/
theorem deep_merge_cons_not_obj (out : List (String × Json)) (k : String)
    (v : Json) (rest : List (String × Json)) (h : ∀ vb, v ≠ Json.obj vb) :
    deep_merge out ((k, v) :: rest) = deep_merge (aset out k v) rest := by
  cases v with
  | obj vb => exact absurd rfl (h vb)
  | null => simp [deep_merge]
  | bool x => simp [deep_merge]
  | num x => simp [deep_merge]
  | str x => simp [deep_merge]
  | arr x => simp [deep_merge]

/-- Keys not mentioned by the patch are untouched by `deep_merge`. -/
theorem alookup_deep_merge_notin (b : List (String × Json)) (out : List (String × Json))
    (k : String) (hk : k ∉ b.map Prod.fst) :
    alookup (deep_merge out b) k = alookup out k := by
  induction b generalizing out with
  | nil => simp [deep_merge]
  | cons kv rest ih =>
    obtain ⟨k0, v⟩ := kv
    simp only [List.map_cons, List.mem_cons] at hk
    push_neg at hk
    obtain ⟨hne, hrest⟩ := hk
    cases v with
    | obj vb =>
      simp only [deep_merge]
      cases h0 : alookup out k0 with
      | none => rw [ih _ hrest, alookup_aset_ne _ _ _ _ hne]
      | some w =>
        cases w <;> simp only [h0] <;> rw [ih _ hrest, alookup_aset_ne _ _ _ _ hne]
    | null =>
      rw [deep_merge_cons_not_obj _ _ _ _ (fun vb h => Json.noConfusion h),
          ih _ hrest, alookup_aset_ne _ _ _ _ hne]
    | bool x =>
      rw [deep_merge_cons_not_obj _ _ _ _ (fun vb h => Json.noConfusion h),
          ih _ hrest, alookup_aset_ne _ _ _ _ hne]
    | num x =>
      rw [deep_merge_cons_not_obj _ _ _ _ (fun vb h => Json.noConfusion h),
          ih _ hrest, alookup_aset_ne _ _ _ _ hne]
    | str x =>
      rw [deep_merge_cons_not_obj _ _ _ _ (fun vb h => Json.noConfusion h),
          ih _ hrest, alookup_aset_ne _ _ _ _ hne]
    | arr x =>
      rw [deep_merge_cons_not_obj _ _ _ _ (fun vb h => Json.noConfusion h),
          ih _ hrest, alookup_aset_ne _ _ _ _ hne]

theorem mergedValue_not_obj (av : Option Json) (v : Json)
    (h : ∀ vb, v ≠ Json.obj vb) : mergedValue av v = v := by
  cases v with
  | obj vb => exact absurd rfl (h vb)
  | null => cases av with
    | none => rfl
    | some w => cases w <;> rfl
  | bool x => cases av with
    | none => rfl
    | some w => cases w <;> rfl
  | num x => cases av with
    | none => rfl
    | some w => cases w <;> rfl
  | str x => cases av with
    | none => rfl
    | some w => cases w <;> rfl
  | arr x => cases av with
    | none => rfl
    | some w => cases w <;> rfl

/-- C3 — Deep merge of a patch onto an existing document: for every key of
the patch (a Python dict, hence with distinct keys), if both the existing
value and the patch value are dicts the merge recurses, and otherwise —
including arrays, which are replaced wholesale rather than element-merged,
and `null`, which overwrites the existing value rather than deleting the key
or being a no-op — the patch value replaces the existing value (`mergedValue`
spells out exactly this case split). -/
theorem claim_C3_deep_merge (a b : List (String × Json))
    (hb : (b.map Prod.fst).Nodup) (k : String) (v : Json)
    (hkv : alookup b k = some v) :
    alookup (deep_merge a b) k = some (mergedValue (alookup a k) v) := by
  induction b generalizing a with
  | nil => simp [alookup] at hkv
  | cons kv rest ih =>
    obtain ⟨k0, v0⟩ := kv
    simp only [List.map_cons, List.nodup_cons] at hb
    obtain ⟨hk0, hrest⟩ := hb
    by_cases hk : k0 = k
    · subst hk
      simp [alookup] at hkv
      subst hkv
      have hnotin : k0 ∉ rest.map Prod.fst := hk0
      cases v0 with
      | obj vb =>
        simp only [deep_merge]
        cases h0 : alookup a k0 with
        | none =>
          rw [alookup_deep_merge_notin rest _ _ hnotin, alookup_aset_self]
          simp [mergedValue, h0]
        | some w =>
          cases w <;> simp only [h0] <;>
            rw [alookup_deep_merge_notin rest _ _ hnotin, alookup_aset_self] <;>
            simp [mergedValue, h0]
      | null =>
        rw [deep_merge_cons_not_obj _ _ _ _ (fun vb h => Json.noConfusion h),
            alookup_deep_merge_notin rest _ _ hnotin, alookup_aset_self,
            mergedValue_not_obj _ _ (fun vb h => Json.noConfusion h)]
      | bool x =>
        rw [deep_merge_cons_not_obj _ _ _ _ (fun vb h => Json.noConfusion h),
            alookup_deep_merge_notin rest _ _ hnotin, alookup_aset_self,
            mergedValue_not_obj _ _ (fun vb h => Json.noConfusion h)]
      | num x =>
        rw [deep_merge_cons_not_obj _ _ _ _ (fun vb h => Json.noConfusion h),
            alookup_deep_merge_notin rest _ _ hnotin, alookup_aset_self,
            mergedValue_not_obj _ _ (fun vb h => Json.noConfusion h)]
      | str x =>
        rw [deep_merge_cons_not_obj _ _ _ _ (fun vb h => Json.noConfusion h),
            alookup_deep_merge_notin rest _ _ hnotin, alookup_aset_self,
            mergedValue_not_obj _ _ (fun vb h => Json.noConfusion h)]
      | arr x =>
        rw [deep_merge_cons_not_obj _ _ _ _ (fun vb h => Json.noConfusion h),
            alookup_deep_merge_notin rest _ _ hnotin, alookup_aset_self,
            mergedValue_not_obj _ _ (fun vb h => Json.noConfusion h)]
    · have hk' : k ≠ k0 := fun e => hk e.symm
      simp only [alookup, if_neg hk] at hkv
      cases v0 with
      | obj vb =>
        simp only [deep_merge]
        cases h0 : alookup a k0 with
        | none =>
          rw [ih _ hrest hkv, alookup_aset_ne _ _ _ _ hk']
        | some w =>
          cases w <;> simp only [h0] <;>
            rw [ih _ hrest hkv, alookup_aset_ne _ _ _ _ hk']
      | null =>
        rw [deep_merge_cons_not_obj _ _ _ _ (fun vb h => Json.noConfusion h),
            ih _ hrest hkv, alookup_aset_ne _ _ _ _ hk']
      | bool x =>
        rw [deep_merge_cons_not_obj _ _ _ _ (fun vb h => Json.noConfusion h),
            ih _ hrest hkv, alookup_aset_ne _ _ _ _ hk']
      | num x =>
        rw [deep_merge_cons_not_obj _ _ _ _ (fun vb h => Json.noConfusion h),
            ih _ hrest hkv, alookup_aset_ne _ _ _ _ hk']
      | str x =>
        rw [deep_merge_cons_not_obj _ _ _ _ (fun vb h => Json.noConfusion h),
            ih _ hrest hkv, alookup_aset_ne _ _ _ _ hk']
      | arr x =>
        rw [deep_merge_cons_not_obj _ _ _ _ (fun vb h => Json.noConfusion h),
            ih _ hrest hkv, alookup_aset_ne _ _ _ _ hk']

/-- Witness for C3, at a patch whose values exercise the replacement branch:
the `null` patch value lands stored (not deleted, not skipped). -/
theorem claim_C3_deep_merge_witness :
    ((["x", "y", "z"] : List String).Nodup ∧
     alookup [("x", Json.obj [("q", Json.null)]), ("y", Json.arr [Json.num 3]),
              ("z", Json.null)] "z" = some Json.null) ∧
    alookup (deep_merge
      [("x", Json.obj [("p", Json.num 1)]), ("y", Json.arr [Json.num 1, Json.num 2])]
      [("x", Json.obj [("q", Json.null)]), ("y", Json.arr [Json.num 3]),
       ("z", Json.null)]) "z" = some Json.null :=
  ⟨⟨by decide, rfl⟩,
   claim_C3_deep_merge
     [("x", Json.obj [("p", Json.num 1)]), ("y", Json.arr [Json.num 1, Json.num 2])]
     [("x", Json.obj [("q", Json.null)]), ("y", Json.arr [Json.num 3]), ("z", Json.null)]
     (by simp) "z" Json.null rfl⟩

/-! ### Derived-field computation: C4 and C7 -/

theorem coveragePoints_length (ob : List (String × Json)) (pts : List Bool)
    (h : coveragePoints ob = some pts) : pts.length = 6 := by
  unfold coveragePoints at h
  split at h
  · cases h
    rfl
  · simp at h

theorem compute_derived_confidence (ob : List (String × Json)) (pts : List Bool)
    (h : coveragePoints ob = some pts) :
    ∃ d, compute_derived ob = some d ∧
      alookup d "confidence_index" =
        some (.num (round2 (((pts.filter (fun p => p)).length : ℚ) / (pts.length : ℚ)))) := by
  unfold compute_derived
  rw [h]
  refine ⟨_, rfl, ?_⟩
  simp [alookup]

theorem round2_val_0 : round2 ((0 : ℚ) / 6) = 0 := by with_unfolding_all rfl

theorem round2_val_1 : round2 ((1 : ℚ) / 6) = 17 / 100 := by with_unfolding_all rfl

theorem round2_val_2 : round2 ((2 : ℚ) / 6) = 33 / 100 := by with_unfolding_all rfl

theorem round2_val_3 : round2 ((3 : ℚ) / 6) = 1 / 2 := by with_unfolding_all rfl

theorem round2_val_4 : round2 ((4 : ℚ) / 6) = 67 / 100 := by with_unfolding_all rfl

theorem round2_val_5 : round2 ((5 : ℚ) / 6) = 83 / 100 := by with_unfolding_all rfl

theorem round2_val_6 : round2 ((6 : ℚ) / 6) = 1 := by with_unfolding_all rfl

theorem round2_div6_values (c : Nat) (hc : c ≤ 6) :
    round2 ((c : ℚ) / 6) ∈ ([0, 17/100, 33/100, 1/2, 67/100, 83/100, 1] : List ℚ) ∧
    0 ≤ round2 ((c : ℚ) / 6) ∧ round2 ((c : ℚ) / 6) ≤ 1 := by
  interval_cases c <;>
    simp only [Nat.cast_zero, Nat.cast_one, Nat.cast_ofNat, round2_val_0, round2_val_1,
      round2_val_2, round2_val_3, round2_val_4, round2_val_5, round2_val_6,
      List.mem_cons, List.mem_singleton] <;> norm_num

theorem round2_div6_mono (m n : Nat) (hmn : m ≤ n) (hn : n ≤ 6) :
    round2 ((m : ℚ) / 6) ≤ round2 ((n : ℚ) / 6) := by
  have hm : m ≤ 6 := le_trans hmn hn
  interval_cases m <;> interval_cases n <;>
    simp only [Nat.cast_zero, Nat.cast_one, Nat.cast_ofNat, round2_val_0, round2_val_1,
      round2_val_2, round2_val_3, round2_val_4, round2_val_5, round2_val_6] <;>
    norm_num

/-- C4 — the computed `confidence_index` is the number of satisfied
checkpoints among the six fixed coverage checkpoints, divided by 6 and
rounded to 2 decimal places; consequently it lies in `[0, 1]` and is one of
the seven roundings of multiples of `1/6`. -/
theorem claim_C4_confidence_index (ob : List (String × Json))
    (d : List (String × Json)) (hd : compute_derived ob = some d) :
    ∃ pts : List Bool, coveragePoints ob = some pts ∧ pts.length = 6 ∧
      ∃ ci : ℚ, alookup d "confidence_index" = some (.num ci) ∧
        ci = round2 (((pts.filter (fun p => p)).length : ℚ) / 6) ∧
        0 ≤ ci ∧ ci ≤ 1 ∧
        ci ∈ ([0, 17/100, 33/100, 1/2, 67/100, 83/100, 1] : List ℚ) := by
  have hcp : ∃ pts, coveragePoints ob = some pts := by
    unfold compute_derived at hd
    cases h : coveragePoints ob with
    | none => rw [h] at hd; exact absurd hd (by simp)
    | some pts => exact ⟨pts, rfl⟩
  obtain ⟨pts, h⟩ := hcp
  have hlen := coveragePoints_length ob pts h
  obtain ⟨d0, hd0, hci⟩ := compute_derived_confidence ob pts h
  rw [hd] at hd0
  obtain rfl : d = d0 := by injection hd0
  have hcount : (pts.filter (fun p => p)).length ≤ 6 := by
    calc (pts.filter (fun p => p)).length ≤ pts.length := List.length_filter_le _ _
    _ = 6 := hlen
  obtain ⟨hmem, h0, h1⟩ := round2_div6_values (pts.filter (fun p => p)).length hcount
  refine ⟨pts, h, hlen, _, ?_, by norm_num, h0, h1, hmem⟩
  rw [hci, hlen]
  norm_cast

/-- Witness for C4, at a document with two satisfied checkpoints. -/
theorem claim_C4_confidence_index_witness :
    compute_derived
      [("identity", Json.obj [("name", Json.str "A")]),
       ("intent", Json.obj [("problem_statement", Json.str "B")])] =
      some [("confidence_index", Json.num (33/100)),
            ("next_best_actions", Json.arr
              [Json.str "Define 1–2 primary metrics tied to the North Star",
               Json.str "Add at least 1 persona and 1 top use case",
               Json.str "Draft 2–3 milestones with dates and exit criteria",
               Json.str "Link a PRD/design/tech doc or data schema"])] ∧
    ∃ pts : List Bool,
      coveragePoints
        [("identity", Json.obj [("name", Json.str "A")]),
         ("intent", Json.obj [("problem_statement", Json.str "B")])] = some pts ∧
      pts.length = 6 ∧
      ∃ ci : ℚ,
        alookup [("confidence_index", Json.num (33/100)),
            ("next_best_actions", Json.arr
              [Json.str "Define 1–2 primary metrics tied to the North Star",
               Json.str "Add at least 1 persona and 1 top use case",
               Json.str "Draft 2–3 milestones with dates and exit criteria",
               Json.str "Link a PRD/design/tech doc or data schema"])] "confidence_index" =
          some (.num ci) ∧
        ci = round2 (((pts.filter (fun p => p)).length : ℚ) / 6) ∧
        0 ≤ ci ∧ ci ≤ 1 ∧
        ci ∈ ([0, 17/100, 33/100, 1/2, 67/100, 83/100, 1] : List ℚ) := by
  have hcd : compute_derived
      [("identity", Json.obj [("name", Json.str "A")]),
       ("intent", Json.obj [("problem_statement", Json.str "B")])] =
      some [("confidence_index", Json.num (33/100)),
            ("next_best_actions", Json.arr
              [Json.str "Define 1–2 primary metrics tied to the North Star",
               Json.str "Add at least 1 persona and 1 top use case",
               Json.str "Draft 2–3 milestones with dates and exit criteria",
               Json.str "Link a PRD/design/tech doc or data schema"])] := by
    have hA : pyTrim "A" = "A" := rfl
    have hB : pyTrim "B" = "B" := rfl
    have hr : round2 (1 / 3) = 33/100 := by with_unfolding_all rfl
    simp [compute_derived, coveragePoints, point1, point2, point3, point4, point5, point6,
          hasWalk, alookup, getD, pyGet, pyLen, pyBool, hA, hB]
    norm_num [hr]
  exact ⟨hcd, claim_C4_confidence_index _ _ hcd⟩

/-- C7 — adding content never decreases the confidence index: if every
checkpoint satisfied for the first document stays satisfied for the second,
the second confidence index is at least the first. -/
theorem claim_C7_confidence_monotone (ob1 ob2 : List (String × Json))
    (p1 p2 : List Bool) (h1 : coveragePoints ob1 = some p1)
    (h2 : coveragePoints ob2 = some p2)
    (hmono : ∀ i : Fin 6, p1.getD i.val false = true → p2.getD i.val false = true)
    (d1 d2 : List (String × Json))
    (hd1 : compute_derived ob1 = some d1) (hd2 : compute_derived ob2 = some d2) :
    ∃ c1 c2 : ℚ, alookup d1 "confidence_index" = some (.num c1) ∧
      alookup d2 "confidence_index" = some (.num c2) ∧ c1 ≤ c2 := by
  obtain ⟨e1, he1, hc1⟩ := compute_derived_confidence ob1 p1 h1
  obtain ⟨e2, he2, hc2⟩ := compute_derived_confidence ob2 p2 h2
  rw [hd1] at he1
  rw [hd2] at he2
  obtain rfl : d1 = e1 := by injection he1
  obtain rfl : d2 = e2 := by injection he2
  have hl1 := coveragePoints_length ob1 p1 h1
  have hl2 := coveragePoints_length ob2 p2 h2
  refine ⟨_, _, hc1, hc2, ?_⟩
  rw [hl1, hl2]
  apply round2_div6_mono
  · -- counting satisfied checkpoints is monotone under pointwise implication
    have key : ∀ x0 x1 x2 x3 x4 x5 y0 y1 y2 y3 y4 y5 : Bool,
        (x0 = true → y0 = true) → (x1 = true → y1 = true) →
        (x2 = true → y2 = true) → (x3 = true → y3 = true) →
        (x4 = true → y4 = true) → (x5 = true → y5 = true) →
        (([x0, x1, x2, x3, x4, x5].filter (fun p => p)).length ≤
         ([y0, y1, y2, y3, y4, y5].filter (fun p => p)).length) := by decide
    obtain ⟨x0, x1, x2, x3, x4, x5, hx⟩ :
        ∃ x0 x1 x2 x3 x4 x5, p1 = [x0, x1, x2, x3, x4, x5] := by
      match p1, hl1 with
      | [x0, x1, x2, x3, x4, x5], _ => exact ⟨_, _, _, _, _, _, rfl⟩
    obtain ⟨y0, y1, y2, y3, y4, y5, hy⟩ :
        ∃ y0 y1 y2 y3 y4 y5, p2 = [y0, y1, y2, y3, y4, y5] := by
      match p2, hl2 with
      | [y0, y1, y2, y3, y4, y5], _ => exact ⟨_, _, _, _, _, _, rfl⟩
    subst hx
    subst hy
    exact key x0 x1 x2 x3 x4 x5 y0 y1 y2 y3 y4 y5
      (hmono ⟨0, by omega⟩) (hmono ⟨1, by omega⟩) (hmono ⟨2, by omega⟩)
      (hmono ⟨3, by omega⟩) (hmono ⟨4, by omega⟩) (hmono ⟨5, by omega⟩)
  · calc (p2.filter (fun p => p)).length ≤ p2.length := List.length_filter_le _ _
    _ = 6 := hl2

/-- Witness for C7: the empty document versus one with name and problem
statement filled in. -/
theorem claim_C7_confidence_monotone_witness :
    (coveragePoints [] = some [false, false, false, false, false, false] ∧
     coveragePoints
       [("identity", Json.obj [("name", Json.str "A")]),
        ("intent", Json.obj [("problem_statement", Json.str "B")])] =
       some [true, true, false, false, false, false]) ∧
    ∃ c1 c2 : ℚ,
      alookup [("confidence_index", Json.num 0),
            ("next_best_actions", Json.arr
              [Json.str "Define 1–2 primary metrics tied to the North Star",
               Json.str "Add at least 1 persona and 1 top use case",
               Json.str "Draft 2–3 milestones with dates and exit criteria",
               Json.str "Link a PRD/design/tech doc or data schema"])] "confidence_index" =
        some (.num c1) ∧
      alookup [("confidence_index", Json.num (33/100)),
            ("next_best_actions", Json.arr
              [Json.str "Define 1–2 primary metrics tied to the North Star",
               Json.str "Add at least 1 persona and 1 top use case",
               Json.str "Draft 2–3 milestones with dates and exit criteria",
               Json.str "Link a PRD/design/tech doc or data schema"])] "confidence_index" =
        some (.num c2) ∧ c1 ≤ c2 := by
  have hA : pyTrim "A" = "A" := rfl
  have hB : pyTrim "B" = "B" := rfl
  have hcp1 : coveragePoints [] = some [false, false, false, false, false, false] := by
    simp [coveragePoints, point1, point2, point3, point4, point5, point6,
          hasWalk, alookup, getD, pyGet, pyLen, pyBool]
  have hcp2 : coveragePoints
      [("identity", Json.obj [("name", Json.str "A")]),
       ("intent", Json.obj [("problem_statement", Json.str "B")])] =
      some [true, true, false, false, false, false] := by
    simp [coveragePoints, point1, point2, point3, point4, point5, point6,
          hasWalk, alookup, getD, pyGet, pyLen, pyBool, hA, hB]
  have hd1 : compute_derived [] =
      some [("confidence_index", Json.num 0),
            ("next_best_actions", Json.arr
              [Json.str "Define 1–2 primary metrics tied to the North Star",
               Json.str "Add at least 1 persona and 1 top use case",
               Json.str "Draft 2–3 milestones with dates and exit criteria",
               Json.str "Link a PRD/design/tech doc or data schema"])] := by
    have hr : round2 (0 : ℚ) = 0 := by with_unfolding_all rfl
    simp [compute_derived, hcp1]
    norm_num [hr]
  have hd2 : compute_derived
      [("identity", Json.obj [("name", Json.str "A")]),
       ("intent", Json.obj [("problem_statement", Json.str "B")])] =
      some [("confidence_index", Json.num (33/100)),
            ("next_best_actions", Json.arr
              [Json.str "Define 1–2 primary metrics tied to the North Star",
               Json.str "Add at least 1 persona and 1 top use case",
               Json.str "Draft 2–3 milestones with dates and exit criteria",
               Json.str "Link a PRD/design/tech doc or data schema"])] := by
    have hr : round2 (1 / 3) = 33/100 := by with_unfolding_all rfl
    simp [compute_derived, hcp2]
    norm_num [hr]
  refine ⟨⟨hcp1, hcp2⟩, ?_⟩
  exact claim_C7_confidence_monotone _ _ _ _ hcp1 hcp2
    (by decide) _ _ hd1 hd2

/-! ### Identifier generation: C8 -/

theorem mem_stripWhile {p : Char → Bool} {l : List Char} {c : Char}
    (h : c ∈ stripWhile p l) : c ∈ l := by
  unfold stripWhile at h
  rw [List.mem_reverse] at h
  have h1 := (List.dropWhile_sublist p).subset h
  rw [List.mem_reverse] at h1
  exact (List.dropWhile_sublist p).subset h1

theorem mem_collapseRunsAux {p : Char → Bool} {r : Char} {b : Bool}
    {l : List Char} {c : Char} (h : c ∈ collapseRunsAux p r b l) :
    c = r ∨ (c ∈ l ∧ p c = false) := by
  induction l generalizing b with
  | nil => simp [collapseRunsAux] at h
  | cons c0 cs ih =>
    unfold collapseRunsAux at h
    by_cases hp : p c0
    · rw [if_pos hp] at h
      rw [List.mem_append] at h
      cases h with
      | inl h0 =>
        left
        cases b with
        | true => simp at h0
        | false => simpa using h0
      | inr h0 =>
        cases ih h0 with
        | inl e => exact Or.inl e
        | inr e => exact Or.inr ⟨List.mem_cons_of_mem _ e.1, e.2⟩
    · rw [if_neg hp] at h
      cases h with
      | head => exact Or.inr ⟨List.mem_cons_self _ _, by simpa using hp⟩
      | tail _ h0 =>
        cases ih h0 with
        | inl e => exact Or.inl e
        | inr e => exact Or.inr ⟨List.mem_cons_of_mem _ e.1, e.2⟩

theorem hexChar_slugChar {c : Char} (h : hexChar c = true) : slugChar c = true := by
  unfold hexChar at h
  unfold slugChar
  simp only [Bool.or_eq_true, Bool.and_eq_true, decide_eq_true_eq] at h ⊢
  rcases h with ⟨h1, h2⟩ | ⟨h1, h2⟩
  · exact Or.inl (Or.inr ⟨h1, h2⟩)
  · exact Or.inl (Or.inl ⟨h1, le_trans h2 (by decide)⟩)

/-- Every character of the slug body is in `[a-z0-9-]`. -/
theorem slug_body_chars (text : String) {c : Char} (h : c ∈ slugBody text) :
    slugChar c = true := by
  unfold slugBody at h
  have h1 := mem_stripWhile h
  rcases mem_collapseRunsAux h1 with e | ⟨h2, hnd⟩
  · subst e; rfl
  rcases mem_collapseRunsAux h2 with e | ⟨h3, hns⟩
  · subst e; rfl
  have hk : keepChar c = true := List.of_mem_filter h3
  unfold keepChar at hk
  unfold slugChar
  simp only [Bool.or_eq_true, Bool.and_eq_true, decide_eq_true_eq] at hk ⊢
  rcases hk with ((h | h) | h) | hsp
  · exact Or.inl (Or.inl h)
  · exact Or.inl (Or.inr h)
  · exact Or.inr h
  · exact absurd hsp (by simp [hns])

/-- C8 — identifier generation: for every input name the slug is produced by
strip, lowercase, deletion of characters outside `[a-z0-9\-\s]`, collapsing
whitespace runs and hyphen runs to single hyphens, and trimming hyphens; an
empty result is replaced by the random fallback token, and the hex
uniqueness suffix is appended, so the produced identifier is non-empty and
matches `[a-z0-9-]+`; in particular `create_project` on the name
`"My App!!"` produces the identifier `"my-app-" ++ suffix`. -/
theorem claim_C8_identifier (text fbHex sufHex : String)
    (hfb : fbHex.toList.all hexChar = true)
    (hsuf : sufHex.toList.all hexChar = true) :
    (slugify text fbHex ≠ "" ∧ (slugify text fbHex).toList.all slugChar = true) ∧
    ((slugify text fbHex ++ "-" ++ sufHex) ≠ "" ∧
     (slugify text fbHex ++ "-" ++ sufHex).toList.all slugChar = true) ∧
    (∀ (s : Store) (desc now : String) (r : Store × List (String × Json)),
       create_project s text desc fbHex sufHex now = Except.ok r →
         alookup r.2 "id" = some (.str (slugify text fbHex ++ "-" ++ sufHex))) ∧
    (text = "My App!!" → slugify text fbHex = "my-app") := by
  have hproj : ("project-".toList.all slugChar) = true := by decide
  have hslug : slugify text fbHex ≠ "" ∧ (slugify text fbHex).toList.all slugChar = true := by
    unfold slugify
    split
    · constructor
      · intro e
        have he : ("project-" ++ fbHex).data = "".data := by rw [e]
        rw [String.data_append] at he
        simp at he
      · rw [List.all_eq_true]
        intro c hc
        have hc' : c ∈ ("project-" ++ fbHex).data := hc
        rw [String.data_append, List.mem_append] at hc'
        cases hc' with
        | inl h => exact List.all_eq_true.mp hproj c h
        | inr h => exact hexChar_slugChar ((List.all_eq_true.mp hfb) c h)
    · next hne =>
      constructor
      · intro e
        have he : (String.mk (slugBody text)).data = "".data := by rw [e]
        simp only [String.mk] at he
        rw [he] at hne
        simp at hne
      · rw [List.all_eq_true]
        intro c hc
        exact slug_body_chars text hc
  refine ⟨hslug, ⟨?_, ?_⟩, ?_, ?_⟩
  · intro e
    have he : (slugify text fbHex ++ "-" ++ sufHex).data = "".data := by rw [e]
    rw [String.data_append, String.data_append] at he
    rcases List.append_eq_nil.mp he with ⟨he1, _⟩
    rcases List.append_eq_nil.mp he1 with ⟨_, he2⟩
    simp at he2
  · rw [List.all_eq_true]
    intro c hc
    have hc' : c ∈ (slugify text fbHex ++ "-" ++ sufHex).data := hc
    rw [String.data_append, String.data_append, List.mem_append, List.mem_append] at hc'
    rcases hc' with (h | h) | h
    · exact List.all_eq_true.mp hslug.2 c h
    · exact List.all_eq_true.mp (show ("-".toList.all slugChar) = true by decide) c h
    · exact hexChar_slugChar ((List.all_eq_true.mp hsuf) c h)
  · intro s desc now r hok
    unfold create_project at hok
    split at hok
    · simp at hok
    · injection hok with h
      subst h
      rfl
  · intro e
    subst e
    rfl

/-- Witness for C8 at the spec scenario inputs. -/
theorem claim_C8_identifier_witness :
    ("deadbe".toList.all hexChar = true ∧ "abc123".toList.all hexChar = true) ∧
    ((slugify "My App!!" "deadbe" ≠ "" ∧
      (slugify "My App!!" "deadbe").toList.all slugChar = true) ∧
     ((slugify "My App!!" "deadbe" ++ "-" ++ "abc123") ≠ "" ∧
      (slugify "My App!!" "deadbe" ++ "-" ++ "abc123").toList.all slugChar = true) ∧
     (∀ (s : Store) (desc now : String) (r : Store × List (String × Json)),
        create_project s "My App!!" desc "deadbe" "abc123" now = Except.ok r →
          alookup r.2 "id" =
            some (.str (slugify "My App!!" "deadbe" ++ "-" ++ "abc123"))) ∧
     ("My App!!" = "My App!!" → slugify "My App!!" "deadbe" = "my-app")) :=
  ⟨⟨by decide, by decide⟩,
   claim_C8_identifier "My App!!" "deadbe" "abc123" (by decide) (by decide)⟩

/-! ### Store frame lemmas -/

theorem project_dir_projectFile (s : Store) (pid : String) :
    (project_dir s pid).projectFile = s.projectFile := by
  unfold project_dir
  split <;> rfl

theorem project_dir_onboardingFile (s : Store) (pid : String) :
    (project_dir s pid).onboardingFile = s.onboardingFile := by
  unfold project_dir
  split <;> rfl

theorem mem_dirs_project_dir (s : Store) (pid : String) :
    pid ∈ (project_dir s pid).dirs := by
  unfold project_dir
  split
  · assumption
  · simp

theorem project_dir_dirs_new (s : Store) (pid : String) (h : pid ∉ s.dirs) :
    (project_dir s pid).dirs = s.dirs ++ [pid] := by
  unfold project_dir
  rw [if_neg h]

theorem project_dir_of_mem (s : Store) (pid : String) (h : pid ∈ s.dirs) :
    project_dir s pid = s := by
  unfold project_dir
  rw [if_pos h]

theorem project_dir_idem (s : Store) (pid : String) :
    project_dir (project_dir s pid) pid = project_dir s pid :=
  project_dir_of_mem _ _ (mem_dirs_project_dir s pid)

theorem get_onboarding_fst (s : Store) (pid : String) :
    (get_onboarding s pid).1 = project_dir s pid := by
  unfold get_onboarding
  dsimp only
  split <;> rfl

/-- The document `get_onboarding` returns, in terms of the stored file. -/
theorem get_onboarding_snd (s : Store) (pid : String) :
    (get_onboarding s pid).2 =
      (match alookup s.onboardingFile pid with
       | some (.json j) => j
       | _ => .obj empty_onboarding) := by
  unfold get_onboarding
  dsimp only
  rw [project_dir_onboardingFile]
  cases hx : alookup s.onboardingFile pid with
  | none => rfl
  | some fc => cases fc with
    | json j => rfl
    | corrupt => rfl

theorem touch_project_inv (s : Store) (pid now : String) (s2 : Store)
    (h : touch_project s pid now = some s2) :
    s2.dirs = (project_dir s pid).dirs ∧
    s2.onboardingFile = s.onboardingFile ∧
    ∃ m, s2.projectFile = aset (project_dir s pid).projectFile pid (.json (.obj m)) := by
  unfold touch_project at h
  dsimp only at h
  split at h
  case h_1 => exact Option.noConfusion h
  case h_2 m hm =>
    rw [Option.some.injEq] at h
    subst h
    exact ⟨rfl, project_dir_onboardingFile s pid, _, rfl⟩

theorem match_obj_some {j : Json} {m : List (String × Json)}
    (h : (match j with | Json.obj m => some m | _ => none) = some m) :
    j = Json.obj m := by
  cases j <;> simp_all

/-- Inversion of a successful draft save: the merged document, its
recomputed `derived` dict, and the resulting store. -/
theorem save_onboarding_draft_inv (s : Store) (pid : String)
    (patch : List (String × Json)) (now : String)
    (r : Store × List (String × Json))
    (h : save_onboarding_draft s pid patch now = some r) :
    ∃ exm d,
      (get_onboarding s pid).2 = Json.obj exm ∧
      compute_derived (deep_merge exm patch) = some d ∧
      r.2 = aset (deep_merge exm patch) "derived" (Json.obj d) ∧
      pid ∈ r.1.dirs ∧
      r.1.onboardingFile = aset s.onboardingFile pid (.json (.obj r.2)) := by
  unfold save_onboarding_draft at h
  dsimp only at h
  split at h
  all_goals try exact Option.noConfusion h
  rename_i exm hexm
  split at h
  all_goals try exact Option.noConfusion h
  rename_i d hd
  split at h
  all_goals try exact Option.noConfusion h
  rename_i s3 hs3
  rw [Option.some.injEq] at h
  subst h
  obtain ⟨hdirs, hob, -⟩ := touch_project_inv _ _ _ _ hs3
  refine ⟨exm, d, hexm, hd, rfl, ?_, ?_⟩
  · rw [hdirs]
    exact mem_dirs_project_dir _ _
  · rw [hob]
    dsimp only
    rw [get_onboarding_fst, project_dir_onboardingFile]

/-- Inversion of `commit_onboarding` in the `validationError` case: the
error is raised before any file write, with the store as `_project_dir`
left it. -/
theorem commit_validation_inv (s : Store) (pid now msg : String) (s2 : Store)
    (h : commit_onboarding s pid now = .validationError msg s2) :
    ∃ ob nameT psT,
      (get_onboarding s pid).2 = Json.obj ob ∧
      (pyGet (getD ob "identity" (.obj [])) "name" (.str "")).bind pyStrip = some nameT ∧
      (pyGet (getD ob "intent" (.obj [])) "problem_statement" (.str "")).bind pyStrip = some psT ∧
      (nameT = "" ∨ psT = "") ∧
      msg = "Missing required: " ++ joinComma
        ((if nameT = "" then ["identity.name"] else []) ++
         (if psT = "" then ["intent.problem_statement"] else [])) ∧
      s2 = project_dir s pid := by
  unfold commit_onboarding at h
  dsimp only at h
  have hsnd : (get_onboarding (project_dir s pid) pid).2 = (get_onboarding s pid).2 := by
    rw [get_onboarding_snd, get_onboarding_snd, project_dir_onboardingFile]
  rw [hsnd] at h
  split at h
  all_goals try exact CommitResult.noConfusion h
  rename_i ob hob
  split at h
  all_goals try exact CommitResult.noConfusion h
  rename_i nameT psT hname hps
  have hs2 : (get_onboarding (project_dir s pid) pid).1 = project_dir s pid := by
    rw [get_onboarding_fst, project_dir_idem]
  by_cases hn : nameT = "" <;> by_cases hp : psT = ""
  · rw [if_pos hn, if_pos hp] at h
    rw [if_pos (by simp)] at h
    rw [CommitResult.validationError.injEq] at h
    refine ⟨ob, nameT, psT, hob, hname, hps, Or.inl hn, ?_, ?_⟩
    · rw [← h.1, if_pos hn, if_pos hp]
    · rw [← h.2, hs2]
  · rw [if_pos hn, if_neg hp] at h
    rw [if_pos (by simp)] at h
    rw [CommitResult.validationError.injEq] at h
    refine ⟨ob, nameT, psT, hob, hname, hps, Or.inl hn, ?_, ?_⟩
    · rw [← h.1, if_pos hn, if_neg hp]
    · rw [← h.2, hs2]
  · rw [if_neg hn, if_pos hp] at h
    rw [if_pos (by simp)] at h
    rw [CommitResult.validationError.injEq] at h
    refine ⟨ob, nameT, psT, hob, hname, hps, Or.inr hp, ?_, ?_⟩
    · rw [← h.1, if_neg hn, if_pos hp]
    · rw [← h.2, hs2]
  · rw [if_neg hn, if_neg hp] at h
    rw [if_neg (by simp)] at h
    split at h
    all_goals try exact CommitResult.noConfusion h
    split at h
    all_goals exact CommitResult.noConfusion h

/-- Inversion of `commit_onboarding` in the `ok` case: the validation
passed, `derived` was recomputed and written, and the project metadata was
synced. -/
theorem commit_ok_inv (s : Store) (pid now : String) (s' : Store)
    (doc : List (String × Json))
    (h : commit_onboarding s pid now = .ok s' doc) :
    ∃ ob nameT psT d m nameJ oneLineJ nsJ,
      (get_onboarding s pid).2 = Json.obj ob ∧
      (pyGet (getD ob "identity" (.obj [])) "name" (.str "")).bind pyStrip = some nameT ∧
      (pyGet (getD ob "intent" (.obj [])) "problem_statement" (.str "")).bind pyStrip = some psT ∧
      nameT ≠ "" ∧ psT ≠ "" ∧
      compute_derived ob = some d ∧
      doc = aset ob "derived" (Json.obj d) ∧
      (match (alookup s.projectFile pid : Option FileContent) with
       | some (.json (.obj m0)) => some m0
       | some (.json _) => none
       | some .corrupt => some [("id", Json.str pid)]
       | none => some [("id", Json.str pid)]) = some m ∧
      pyGet (getD ob "identity" (.obj [])) "name" Json.null = some nameJ ∧
      pyGet (getD ob "identity" (.obj [])) "one_line" Json.null = some oneLineJ ∧
      pyGet (getD ob "intent" (.obj [])) "north_star" Json.null = some nsJ ∧
      s'.dirs = (project_dir s pid).dirs ∧
      s'.onboardingFile = aset s.onboardingFile pid (.json (.obj doc)) ∧
      s'.projectFile = aset s.projectFile pid (.json (.obj
        (aset (aset (aset m "name" (pyOr nameJ (getD m "name" Json.null)))
          "description" (pyOr oneLineJ (pyOr nsJ (getD m "description" (.str "")))))
          "updated_at" (.str now)))) := by
  unfold commit_onboarding at h
  dsimp only at h
  rw [show (get_onboarding (project_dir s pid) pid).2 = (get_onboarding s pid).2 from by
        rw [get_onboarding_snd, get_onboarding_snd, project_dir_onboardingFile]] at h
  rw [show (get_onboarding (project_dir s pid) pid).1 = project_dir s pid from by
        rw [get_onboarding_fst, project_dir_idem]] at h
  rw [project_dir_projectFile, project_dir_onboardingFile] at h
  split at h
  all_goals try exact CommitResult.noConfusion h
  rename_i ob hob
  split at h
  all_goals try exact CommitResult.noConfusion h
  rename_i nameT psT hname hps
  by_cases hn : nameT = ""
  · rw [if_pos hn] at h
    rw [if_pos (by simp)] at h
    exact CommitResult.noConfusion h
  by_cases hp : psT = ""
  · rw [if_neg hn, if_pos hp] at h
    rw [if_pos (by simp)] at h
    exact CommitResult.noConfusion h
  rw [if_neg hn, if_neg hp] at h
  rw [if_neg (by simp)] at h
  split at h
  all_goals try exact CommitResult.noConfusion h
  rename_i d hd
  split at h
  all_goals try exact CommitResult.noConfusion h
  rename_i m nameJ oneLineJ nsJ hm hnameJ holJ hnsJ
  rw [CommitResult.ok.injEq] at h
  obtain ⟨hs', hdoc⟩ := h
  subst hdoc
  refine ⟨ob, nameT, psT, d, m, nameJ, oneLineJ, nsJ, hob, hname, hps, hn, hp,
    hd, rfl, hm, hnameJ, holJ, hnsJ, ?_, ?_, ?_⟩
  · rw [← hs']
  · rw [← hs']
  · rw [← hs']

theorem commit_ok_mem_dirs (s : Store) (pid now : String) (s' : Store)
    (doc : List (String × Json))
    (h : commit_onboarding s pid now = .ok s' doc) : pid ∈ s'.dirs := by
  obtain ⟨ob, nameT, psT, d, m, nameJ, oneLineJ, nsJ, hrest⟩ := commit_ok_inv s pid now s' doc h
  rw [hrest.2.2.2.2.2.2.2.2.2.2.2.1]
  exact mem_dirs_project_dir s pid

/-- C10 — `getOnboarding` is not a pure read: even for an identifier no
project was created under, it creates the project directory on disk (as do
`saveOnboardingDraft` and `commitOnboarding`), while writing no file and
returning the empty default document. -/
theorem claim_C10_get_onboarding_creates_dir (s : Store) (pid : String)
    (hnew : alookup s.onboardingFile pid = none) (hnd : pid ∉ s.dirs) :
    (get_onboarding s pid).1.dirs = s.dirs ++ [pid] ∧
    pid ∈ (get_onboarding s pid).1.dirs ∧
    (get_onboarding s pid).1.projectFile = s.projectFile ∧
    (get_onboarding s pid).1.onboardingFile = s.onboardingFile ∧
    (get_onboarding s pid).2 = Json.obj empty_onboarding ∧
    (∀ patch now r, save_onboarding_draft s pid patch now = some r → pid ∈ r.1.dirs) ∧
    (∀ now s2 d, commit_onboarding s pid now = .ok s2 d → pid ∈ s2.dirs) ∧
    (∀ now msg s2, commit_onboarding s pid now = .validationError msg s2 → pid ∈ s2.dirs) := by
  refine ⟨?_, ?_, ?_, ?_, ?_, ?_, ?_, ?_⟩
  · rw [get_onboarding_fst, project_dir_dirs_new s pid hnd]
  · rw [get_onboarding_fst]
    exact mem_dirs_project_dir s pid
  · rw [get_onboarding_fst, project_dir_projectFile]
  · rw [get_onboarding_fst, project_dir_onboardingFile]
  · rw [get_onboarding_snd, hnew]
  · intro patch now r hr
    obtain ⟨-, -, -, -, -, hmem, -⟩ := save_onboarding_draft_inv s pid patch now r hr
    exact hmem
  · intro now s2 d h
    exact commit_ok_mem_dirs s pid now s2 d h
  · intro now msg s2 h
    obtain ⟨-, -, -, -, -, -, -, -, hs2⟩ := commit_validation_inv s pid now msg s2 h
    rw [hs2]
    exact mem_dirs_project_dir s pid

/-- Witness for C10 on the empty store. -/
theorem claim_C10_get_onboarding_creates_dir_witness :
    (alookup (Store.mk [] [] []).onboardingFile "p" = none ∧ "p" ∉ (Store.mk [] [] []).dirs) ∧
    ((get_onboarding (Store.mk [] [] []) "p").1.dirs = [] ++ ["p"] ∧
     "p" ∈ (get_onboarding (Store.mk [] [] []) "p").1.dirs ∧
     (get_onboarding (Store.mk [] [] []) "p").1.projectFile = (Store.mk [] [] []).projectFile ∧
     (get_onboarding (Store.mk [] [] []) "p").1.onboardingFile = (Store.mk [] [] []).onboardingFile ∧
     (get_onboarding (Store.mk [] [] []) "p").2 = Json.obj empty_onboarding ∧
     (∀ patch now r, save_onboarding_draft (Store.mk [] [] []) "p" patch now = some r →
        "p" ∈ r.1.dirs) ∧
     (∀ now s2 d, commit_onboarding (Store.mk [] [] []) "p" now = .ok s2 d → "p" ∈ s2.dirs) ∧
     (∀ now msg s2, commit_onboarding (Store.mk [] [] []) "p" now = .validationError msg s2 →
        "p" ∈ s2.dirs)) :=
  ⟨⟨rfl, by simp⟩,
   claim_C10_get_onboarding_creates_dir (Store.mk [] [] []) "p" rfl (by simp)⟩

/-! ### `derived` is recomputed, never taken from a patch: C2 -/

theorem hasWalk_aset_ne (m : List (String × Json)) (k : String) (v : Json)
    (p : String) (rest : List String) (h : p ≠ k) :
    hasWalk (.obj (aset m k v)) (p :: rest) = hasWalk (.obj m) (p :: rest) := by
  unfold hasWalk
  dsimp only
  rw [alookup_aset_ne m k p v h]

theorem point1_aset_derived (ob : List (String × Json)) (v : Json) :
    point1 (aset ob "derived" v) = point1 ob := by
  unfold point1
  exact hasWalk_aset_ne _ _ _ _ _ (by decide)

theorem point2_aset_derived (ob : List (String × Json)) (v : Json) :
    point2 (aset ob "derived" v) = point2 ob := by
  unfold point2
  exact hasWalk_aset_ne _ _ _ _ _ (by decide)

theorem point3_aset_derived (ob : List (String × Json)) (v : Json) :
    point3 (aset ob "derived" v) = point3 ob := by
  unfold point3
  rw [hasWalk_aset_ne _ _ _ _ _ (by decide), getD_aset_ne _ _ _ _ _ (by decide)]

theorem point4_aset_derived (ob : List (String × Json)) (v : Json) :
    point4 (aset ob "derived" v) = point4 ob := by
  unfold point4
  rw [getD_aset_ne _ _ _ _ _ (by decide), getD_aset_ne _ _ _ _ _ (by decide)]

theorem point5_aset_derived (ob : List (String × Json)) (v : Json) :
    point5 (aset ob "derived" v) = point5 ob := by
  unfold point5
  rw [getD_aset_ne _ _ _ _ _ (by decide)]

theorem point6_aset_derived (ob : List (String × Json)) (v : Json) :
    point6 (aset ob "derived" v) = point6 ob := by
  unfold point6
  rw [getD_aset_ne _ _ _ _ _ (by decide)]

/-- The coverage checkpoints never read the `derived` key. -/
theorem coveragePoints_aset_derived (ob : List (String × Json)) (v : Json) :
    coveragePoints (aset ob "derived" v) = coveragePoints ob := by
  unfold coveragePoints
  rw [point1_aset_derived, point2_aset_derived, point3_aset_derived,
      point4_aset_derived, point5_aset_derived, point6_aset_derived]

/-- The function `_compute_derived` never reads the `derived` key, so overwriting that
key does not change its result. -/
theorem compute_derived_aset_derived (ob : List (String × Json)) (v : Json) :
    compute_derived (aset ob "derived" v) = compute_derived ob := by
  unfold compute_derived
  rw [coveragePoints_aset_derived]

/-- C2 — on every successful draft save and every successful commit, the
persisted (and returned) document's `derived` section equals the pure
derived-field function applied to the document itself (which never reads
the `derived` key): a `derived` value supplied in a patch is never kept,
and the recomputed value is persisted. -/
theorem claim_C2_derived_recomputed (s : Store) (pid : String)
    (patch : List (String × Json)) (now : String) :
    (∀ r, save_onboarding_draft s pid patch now = some r →
       ∃ d, compute_derived r.2 = some d ∧ alookup r.2 "derived" = some (.obj d) ∧
         r.1.onboardingFile = aset s.onboardingFile pid (.json (.obj r.2))) ∧
    (∀ s' doc, commit_onboarding s pid now = .ok s' doc →
       ∃ d, compute_derived doc = some d ∧ alookup doc "derived" = some (.obj d) ∧
         s'.onboardingFile = aset s.onboardingFile pid (.json (.obj doc))) := by
  constructor
  · intro r hr
    obtain ⟨exm, d, hob, hd, hr2, -, hfile⟩ := save_onboarding_draft_inv s pid patch now r hr
    refine ⟨d, ?_, ?_, hfile⟩
    · rw [hr2, compute_derived_aset_derived, hd]
    · rw [hr2, alookup_aset_self]
  · intro s' doc h
    obtain ⟨ob, nameT, psT, d, m, nameJ, oneLineJ, nsJ, hob, -, -, -, -, hd, hdoc, -,
      -, -, -, -, hfile, -⟩ := commit_ok_inv s pid now s' doc h
    refine ⟨d, ?_, ?_, hfile⟩
    · rw [hdoc, compute_derived_aset_derived, hd]
    · rw [hdoc, alookup_aset_self]

/-- C9 — a commit failing validation modifies no persisted document: the
project metadata file and the onboarding file are exactly as before (only
the project directory may have been created). -/
theorem claim_C9_failed_commit_preserves_files (s : Store) (pid now msg : String)
    (s2 : Store) (h : commit_onboarding s pid now = .validationError msg s2) :
    s2.projectFile = s.projectFile ∧ s2.onboardingFile = s.onboardingFile := by
  obtain ⟨-, -, -, -, -, -, -, -, hs2⟩ := commit_validation_inv s pid now msg s2 h
  rw [hs2, project_dir_projectFile, project_dir_onboardingFile]
  exact ⟨rfl, rfl⟩

theorem compute_derived_obA_append :
    compute_derived (obA ++ [("derived", Json.str "bogus")]) = some dA := by
  have hA : pyTrim "A" = "A" := rfl
  have hB : pyTrim "B" = "B" := rfl
  have hr : round2 (1 / 3) = 33/100 := by with_unfolding_all rfl
  simp [compute_derived, coveragePoints, point1, point2, point3, point4, point5, point6,
        hasWalk, alookup, getD, pyGet, pyLen, pyBool, obA, dA, hA, hB]
  norm_num [hr]

/-- Witness for C2: a draft save whose patch tries to smuggle in a bogus
`derived` value; the persisted document carries the recomputed one. -/
theorem claim_C2_derived_recomputed_witness :
    save_onboarding_draft (Store.mk [] [] [("p", .json (.obj obA))]) "p"
        [("derived", Json.str "bogus")] "t" =
      some (Store.mk ["p"]
              [("p", .json (.obj [("id", Json.str "p"), ("updated_at", Json.str "t")]))]
              [("p", .json (.obj (obA ++ [("derived", Json.obj dA)])))],
            obA ++ [("derived", Json.obj dA)]) ∧
    (∃ d, compute_derived
        (Store.mk ["p"]
              [("p", .json (.obj [("id", Json.str "p"), ("updated_at", Json.str "t")]))]
              [("p", .json (.obj (obA ++ [("derived", Json.obj dA)])))],
            obA ++ [("derived", Json.obj dA)]).2 = some d ∧
       alookup (obA ++ [("derived", Json.obj dA)]) "derived" = some (.obj d) ∧
       (Store.mk ["p"]
              [("p", .json (.obj [("id", Json.str "p"), ("updated_at", Json.str "t")]))]
              [("p", .json (.obj (obA ++ [("derived", Json.obj dA)])))]).onboardingFile =
         aset [("p", FileContent.json (Json.obj obA))] "p"
           (.json (.obj (obA ++ [("derived", Json.obj dA)])))) := by
  have hsave : save_onboarding_draft (Store.mk [] [] [("p", .json (.obj obA))]) "p"
        [("derived", Json.str "bogus")] "t" =
      some (Store.mk ["p"]
              [("p", .json (.obj [("id", Json.str "p"), ("updated_at", Json.str "t")]))]
              [("p", .json (.obj (obA ++ [("derived", Json.obj dA)])))],
            obA ++ [("derived", Json.obj dA)]) := by
    have hA : pyTrim "A" = "A" := rfl
    have hB : pyTrim "B" = "B" := rfl
    have hr : round2 (1 / 3) = 33/100 := by with_unfolding_all rfl
    simp [save_onboarding_draft, get_onboarding, project_dir, alookup, obA, dA,
          deep_merge, aset, compute_derived, coveragePoints, point1, point2, point3,
          point4, point5, point6, hasWalk, getD, pyGet, pyLen, pyBool,
          touch_project, setdefault, hA, hB]
    norm_num [hr]
  exact ⟨hsave, (claim_C2_derived_recomputed _ "p" _ "t").1 _ hsave⟩

theorem commit_empty_store_eval :
    commit_onboarding (Store.mk [] [] []) "p" "t" =
      CommitResult.validationError
        "Missing required: identity.name, intent.problem_statement"
        (Store.mk ["p"] [] []) := by
  have h0 : pyTrim "" = "" := rfl
  simp [commit_onboarding, get_onboarding, project_dir, alookup, getD, pyGet, pyStrip,
        empty_onboarding, joinComma, h0]

/-- Witness for C9: the failed commit on the empty store leaves both file
maps exactly as they were. -/
theorem claim_C9_failed_commit_preserves_files_witness :
    commit_onboarding (Store.mk [] [] []) "p" "t" =
      CommitResult.validationError
        "Missing required: identity.name, intent.problem_statement"
        (Store.mk ["p"] [] []) ∧
    ((Store.mk ["p"] [] [] : Store).projectFile = (Store.mk [] [] [] : Store).projectFile ∧
     (Store.mk ["p"] [] [] : Store).onboardingFile = (Store.mk [] [] [] : Store).onboardingFile) :=
  ⟨commit_empty_store_eval,
   claim_C9_failed_commit_preserves_files (Store.mk [] [] []) "p" "t" _ _
     commit_empty_store_eval⟩

/-! ### Well-formed documents (the data-model shape of section 3 of the
spec, to the depth the code reads them): C1 and C6 -/

theorem objOrAbsentP_mono (m : List (String × Json)) (k : String)
    (q q' : List (String × Json) → Bool)
    (hq : ∀ mm, q mm = true → q' mm = true)
    (h : objOrAbsentP m k q = true) : objOrAbsentP m k q' = true := by
  unfold objOrAbsentP at h ⊢
  cases hx : alookup m k with
  | none => rfl
  | some v =>
    rw [hx] at h
    cases v with
    | obj mm =>
      dsimp only at h ⊢
      exact hq mm h
    | null => exact Bool.noConfusion h
    | bool b => exact Bool.noConfusion h
    | num q0 => exact Bool.noConfusion h
    | str t => exact Bool.noConfusion h
    | arr xs => exact Bool.noConfusion h

/-- The `x.get(k2, d)` step succeeds on a dict-or-absent section. -/
theorem pyGet_chain (ob : List (String × Json)) (k1 k2 : String) (d : Json)
    (h : objOrAbsentP ob k1 (fun _ => true) = true) :
    pyGet (getD ob k1 (.obj [])) k2 d = some (jsonFieldD ob k1 k2 d) := by
  unfold objOrAbsentP at h
  unfold jsonFieldD getD
  cases hx : alookup ob k1 with
  | none => rfl
  | some v =>
    rw [hx] at h
    cases v with
    | obj mm => rfl
    | null => exact Bool.noConfusion h
    | bool b => exact Bool.noConfusion h
    | num q0 => exact Bool.noConfusion h
    | str t => exact Bool.noConfusion h
    | arr xs => exact Bool.noConfusion h

/-- The `.strip()` of a string-or-absent field of a dict-or-absent section
succeeds and produces the trimmed field value. -/
theorem chain_strip (ob : List (String × Json)) (k1 k2 : String)
    (h : objOrAbsentP ob k1 (fun m => strOrAbsent m k2) = true) :
    (pyGet (getD ob k1 (.obj [])) k2 (.str "")).bind pyStrip =
      some (pyTrim (strField2 ob k1 k2)) := by
  rw [pyGet_chain ob k1 k2 (.str "")
        (objOrAbsentP_mono _ _ _ _ (fun _ _ => rfl) h)]
  unfold objOrAbsentP at h
  cases hx : alookup ob k1 with
  | none =>
    rw [show jsonFieldD ob k1 k2 (.str "") = .str "" from by unfold jsonFieldD; rw [hx],
        show strField2 ob k1 k2 = "" from by unfold strField2 jsonFieldD; rw [hx]]
    rfl
  | some v =>
    rw [hx] at h
    cases v with
    | obj m =>
      dsimp only at h
      unfold strOrAbsent at h
      rw [show jsonFieldD ob k1 k2 (.str "") = getD m k2 (.str "") from by
            unfold jsonFieldD; rw [hx],
          show strField2 ob k1 k2 =
              (match getD m k2 (.str "") with | Json.str s => s | _ => "") from by
            unfold strField2 jsonFieldD; rw [hx]]
      unfold getD
      cases hy : alookup m k2 with
      | none => rfl
      | some w =>
        rw [hy] at h
        cases w with
        | str t => rfl
        | null => exact Bool.noConfusion h
        | bool b => exact Bool.noConfusion h
        | num q0 => exact Bool.noConfusion h
        | arr xs => exact Bool.noConfusion h
        | obj mm => exact Bool.noConfusion h
    | null => exact Bool.noConfusion h
    | bool b => exact Bool.noConfusion h
    | num q0 => exact Bool.noConfusion h
    | str t => exact Bool.noConfusion h
    | arr xs => exact Bool.noConfusion h

theorem pyLen_arrOrAbsent (ob : List (String × Json)) (k1 k2 : String)
    (h : objOrAbsentP ob k1 (fun m => arrOrAbsent m k2) = true) :
    ∃ n, pyLen (jsonFieldD ob k1 k2 (.arr [])) = some n := by
  unfold objOrAbsentP at h
  cases hx : alookup ob k1 with
  | none =>
    rw [show jsonFieldD ob k1 k2 (.arr []) = .arr [] from by unfold jsonFieldD; rw [hx]]
    exact ⟨0, rfl⟩
  | some v =>
    rw [hx] at h
    cases v with
    | obj m =>
      dsimp only at h
      unfold arrOrAbsent at h
      rw [show jsonFieldD ob k1 k2 (.arr []) = getD m k2 (.arr []) from by
            unfold jsonFieldD; rw [hx]]
      unfold getD
      cases hy : alookup m k2 with
      | none => exact ⟨0, rfl⟩
      | some w =>
        rw [hy] at h
        cases w with
        | arr xs => exact ⟨xs.length, rfl⟩
        | null => exact Bool.noConfusion h
        | bool b => exact Bool.noConfusion h
        | num q0 => exact Bool.noConfusion h
        | str t => exact Bool.noConfusion h
        | obj mm => exact Bool.noConfusion h
    | null => exact Bool.noConfusion h
    | bool b => exact Bool.noConfusion h
    | num q0 => exact Bool.noConfusion h
    | str t => exact Bool.noConfusion h
    | arr xs => exact Bool.noConfusion h

theorem oWF_parts (ob : List (String × Json)) (h : oWF ob = true) :
    objOrAbsentP ob "identity" (fun idm =>
      strOrAbsent idm "name" && strOrAbsent idm "one_line") = true ∧
    objOrAbsentP ob "intent" (fun it =>
      strOrAbsent it "problem_statement" && strOrAbsent it "north_star" &&
      arrOrAbsent it "top_use_cases") = true ∧
    objOrAbsentP ob "users" (fun u => arrOrAbsent u "personas") = true ∧
    objOrAbsentP ob "metrics" (fun mm => arrOrAbsent mm "primary_objectives") = true ∧
    objOrAbsentP ob "delivery" (fun dd => arrOrAbsent dd "milestones") = true ∧
    objOrAbsentP ob "artifacts" (fun aa =>
      arrOrAbsent aa "prds" && arrOrAbsent aa "designs" && arrOrAbsent aa "tech_docs") = true := by
  unfold oWF at h
  simp only [Bool.and_eq_true] at h
  tauto

theorem point3_some (ob : List (String × Json))
    (hmet : objOrAbsentP ob "metrics" (fun mm => arrOrAbsent mm "primary_objectives") = true) :
    ∃ b, point3 ob = some b := by
  unfold point3
  by_cases hns : hasWalk (.obj ob) ["intent", "north_star"]
  · rw [if_pos hns]
    exact ⟨true, rfl⟩
  · rw [if_neg hns]
    have hq := pyGet_chain ob "metrics" "primary_objectives" (.arr [])
      (objOrAbsentP_mono _ _ _ _ (fun _ _ => rfl) hmet)
    obtain ⟨n, hn⟩ := pyLen_arrOrAbsent ob "metrics" "primary_objectives" hmet
    refine ⟨decide (0 < n), ?_⟩
    simp [hq, hn]

theorem point4_some (ob : List (String × Json))
    (hu : objOrAbsentP ob "users" (fun u => arrOrAbsent u "personas") = true)
    (hi : objOrAbsentP ob "intent" (fun it => arrOrAbsent it "top_use_cases") = true) :
    ∃ b, point4 ob = some b := by
  unfold point4
  have hq1 := pyGet_chain ob "users" "personas" (.arr [])
    (objOrAbsentP_mono _ _ _ _ (fun _ _ => rfl) hu)
  obtain ⟨n1, hn1⟩ := pyLen_arrOrAbsent ob "users" "personas" hu
  have hq2 := pyGet_chain ob "intent" "top_use_cases" (.arr [])
    (objOrAbsentP_mono _ _ _ _ (fun _ _ => rfl) hi)
  obtain ⟨n2, hn2⟩ := pyLen_arrOrAbsent ob "intent" "top_use_cases" hi
  by_cases hz : n1 = 0
  · refine ⟨false, ?_⟩
    simp [hq1, hn1, hz]
  · refine ⟨decide (0 < n2), ?_⟩
    simp [hq1, hn1, hq2, hn2, hz]

theorem point5_some (ob : List (String × Json))
    (hd : objOrAbsentP ob "delivery" (fun dd => arrOrAbsent dd "milestones") = true) :
    ∃ b, point5 ob = some b := by
  unfold point5
  have hq := pyGet_chain ob "delivery" "milestones" (.arr [])
    (objOrAbsentP_mono _ _ _ _ (fun _ _ => rfl) hd)
  obtain ⟨n, hn⟩ := pyLen_arrOrAbsent ob "delivery" "milestones" hd
  refine ⟨decide (0 < n), ?_⟩
  simp [hq, hn]

theorem point6_some (ob : List (String × Json))
    (ha : objOrAbsentP ob "artifacts" (fun aa =>
      arrOrAbsent aa "prds" && arrOrAbsent aa "designs" && arrOrAbsent aa "tech_docs") = true) :
    ∃ b, point6 ob = some b := by
  unfold point6
  have hp : objOrAbsentP ob "artifacts" (fun aa => arrOrAbsent aa "prds") = true :=
    objOrAbsentP_mono _ _ _ _ (fun mm hm => by
      simp only [Bool.and_eq_true] at hm; tauto) ha
  have hd : objOrAbsentP ob "artifacts" (fun aa => arrOrAbsent aa "designs") = true :=
    objOrAbsentP_mono _ _ _ _ (fun mm hm => by
      simp only [Bool.and_eq_true] at hm; tauto) ha
  have ht : objOrAbsentP ob "artifacts" (fun aa => arrOrAbsent aa "tech_docs") = true :=
    objOrAbsentP_mono _ _ _ _ (fun mm hm => by
      simp only [Bool.and_eq_true] at hm; tauto) ha
  have htriv : objOrAbsentP ob "artifacts" (fun _ => true) = true :=
    objOrAbsentP_mono _ _ _ _ (fun _ _ => rfl) ha
  have hq1 := pyGet_chain ob "artifacts" "prds" (.arr []) htriv
  obtain ⟨n1, hn1⟩ := pyLen_arrOrAbsent ob "artifacts" "prds" hp
  have hq2 := pyGet_chain ob "artifacts" "designs" (.arr []) htriv
  obtain ⟨n2, hn2⟩ := pyLen_arrOrAbsent ob "artifacts" "designs" hd
  have hq3 := pyGet_chain ob "artifacts" "tech_docs" (.arr []) htriv
  obtain ⟨n3, hn3⟩ := pyLen_arrOrAbsent ob "artifacts" "tech_docs" ht
  have hq4 := pyGet_chain ob "artifacts" "data_schema" .null htriv
  refine ⟨decide (0 < n1) || decide (0 < n2) || decide (0 < n3) ||
    pyBool (jsonFieldD ob "artifacts" "data_schema" .null), ?_⟩
  simp [hq1, hn1, hq2, hn2, hq3, hn3, hq4]

/-- A well-formed document never makes `_compute_derived` raise. -/
theorem coveragePoints_some (ob : List (String × Json)) (h : oWF ob = true) :
    ∃ pts, coveragePoints ob = some pts := by
  obtain ⟨h1, h2, h3, h4, h5, h6⟩ := oWF_parts ob h
  have hi : objOrAbsentP ob "intent" (fun it => arrOrAbsent it "top_use_cases") = true :=
    objOrAbsentP_mono _ _ _ _ (fun mm hm => by
      simp only [Bool.and_eq_true] at hm; tauto) h2
  obtain ⟨b3, hb3⟩ := point3_some ob h4
  obtain ⟨b4, hb4⟩ := point4_some ob h3 hi
  obtain ⟨b5, hb5⟩ := point5_some ob h5
  obtain ⟨b6, hb6⟩ := point6_some ob h6
  unfold coveragePoints
  rw [hb3, hb4, hb5, hb6]
  exact ⟨_, rfl⟩

theorem compute_derived_some (ob : List (String × Json)) (h : oWF ob = true) :
    ∃ d, compute_derived ob = some d := by
  obtain ⟨pts, hp⟩ := coveragePoints_some ob h
  unfold compute_derived
  rw [hp]
  exact ⟨_, rfl⟩

/-- C1 — for a stored onboarding document of the data-model shape (and a
project metadata file that is absent, corrupt, or a dict), the commit fails
with a validation error exactly when `identity.name` or
`intent.problem_statement` is empty after trimming; the error message names
every missing field (collect-all); no other error kind is raised; and
otherwise the commit succeeds, persisting and returning the committed
document. -/
theorem claim_C1_commit_validation (s : Store) (pid now : String)
    (ob : List (String × Json))
    (hob : (get_onboarding s pid).2 = Json.obj ob)
    (hwf : oWF ob = true) (hmeta : metaWF s pid = true) :
    ((∃ msg s2, commit_onboarding s pid now = .validationError msg s2) ↔
       (pyTrim (strField2 ob "identity" "name") = "" ∨
        pyTrim (strField2 ob "intent" "problem_statement") = "")) ∧
    (∀ msg s2, commit_onboarding s pid now = .validationError msg s2 →
       msg = "Missing required: " ++ joinComma
         ((if pyTrim (strField2 ob "identity" "name") = "" then ["identity.name"] else []) ++
          (if pyTrim (strField2 ob "intent" "problem_statement") = ""
           then ["intent.problem_statement"] else []))) ∧
    commit_onboarding s pid now ≠ .crash ∧
    (pyTrim (strField2 ob "identity" "name") ≠ "" →
     pyTrim (strField2 ob "intent" "problem_statement") ≠ "" →
       ∃ s' d, commit_onboarding s pid now = .ok s' (aset ob "derived" (.obj d)) ∧
         compute_derived ob = some d ∧
         s'.onboardingFile = aset s.onboardingFile pid
           (.json (.obj (aset ob "derived" (.obj d))))) := by
  obtain ⟨h1, h2, -, -, -, -⟩ := oWF_parts ob hwf
  have hch1 : (pyGet (getD ob "identity" (.obj [])) "name" (.str "")).bind pyStrip =
      some (pyTrim (strField2 ob "identity" "name")) :=
    chain_strip ob "identity" "name"
      (objOrAbsentP_mono _ _ _ _ (fun mm hm => by
        simp only [Bool.and_eq_true] at hm; tauto) h1)
  have hch2 : (pyGet (getD ob "intent" (.obj [])) "problem_statement" (.str "")).bind pyStrip =
      some (pyTrim (strField2 ob "intent" "problem_statement")) :=
    chain_strip ob "intent" "problem_statement"
      (objOrAbsentP_mono _ _ _ _ (fun mm hm => by
        simp only [Bool.and_eq_true] at hm; tauto) h2)
  by_cases hcond : pyTrim (strField2 ob "identity" "name") = "" ∨
      pyTrim (strField2 ob "intent" "problem_statement") = ""
  · -- a required field is missing: the commit raises the validation error
    have hcommit : commit_onboarding s pid now =
        .validationError ("Missing required: " ++ joinComma
          ((if pyTrim (strField2 ob "identity" "name") = ""
            then ["identity.name"] else []) ++
           (if pyTrim (strField2 ob "intent" "problem_statement") = ""
            then ["intent.problem_statement"] else []))) (project_dir s pid) := by
      unfold commit_onboarding
      dsimp only
      rw [show (get_onboarding (project_dir s pid) pid).2 = (get_onboarding s pid).2 from by
            rw [get_onboarding_snd, get_onboarding_snd, project_dir_onboardingFile]]
      rw [show (get_onboarding (project_dir s pid) pid).1 = project_dir s pid from by
            rw [get_onboarding_fst, project_dir_idem]]
      rw [hob]
      dsimp only
      rw [hch1, hch2]
      dsimp only
      rw [if_pos ?hc]
      case hc =>
        rcases hcond with hn | hp
        · simp [hn]
        · simp [hp]
    refine ⟨⟨fun _ => hcond, fun _ => ⟨_, _, hcommit⟩⟩, ?_, ?_, ?_⟩
    · intro msg s2 h
      rw [hcommit] at h
      exact (CommitResult.validationError.injEq _ _ _ _ |>.mp h.symm).1
    · rw [hcommit]
      exact fun e => CommitResult.noConfusion e
    · intro hn hp
      exact absurd hcond (by simp [hn, hp])
  · -- both required fields present: the commit succeeds
    push_neg at hcond
    obtain ⟨hn, hp⟩ := hcond
    obtain ⟨d, hd⟩ := compute_derived_some ob hwf
    have htriv1 : objOrAbsentP ob "identity" (fun _ => true) = true :=
      objOrAbsentP_mono _ _ _ _ (fun _ _ => rfl) h1
    have htriv2 : objOrAbsentP ob "intent" (fun _ => true) = true :=
      objOrAbsentP_mono _ _ _ _ (fun _ _ => rfl) h2
    have hg1 := pyGet_chain ob "identity" "name" .null htriv1
    have hg2 := pyGet_chain ob "identity" "one_line" .null htriv1
    have hg3 := pyGet_chain ob "intent" "north_star" .null htriv2
    have hcommit : ∃ s', commit_onboarding s pid now =
        .ok s' (aset ob "derived" (.obj d)) ∧
        s'.onboardingFile = aset s.onboardingFile pid
          (.json (.obj (aset ob "derived" (.obj d)))) := by
      unfold commit_onboarding
      dsimp only
      rw [show (get_onboarding (project_dir s pid) pid).2 = (get_onboarding s pid).2 from by
            rw [get_onboarding_snd, get_onboarding_snd, project_dir_onboardingFile]]
      rw [show (get_onboarding (project_dir s pid) pid).1 = project_dir s pid from by
            rw [get_onboarding_fst, project_dir_idem]]
      rw [project_dir_projectFile, project_dir_onboardingFile]
      rw [hob]
      dsimp only
      rw [hch1, hch2]
      dsimp only
      rw [if_neg (by simp [hn, hp]), hd]
      dsimp only
      rw [hg1, hg2, hg3]
      unfold metaWF at hmeta
      cases hmc : alookup s.projectFile pid with
      | none =>
        exact ⟨_, rfl, rfl⟩
      | some fc =>
        rw [hmc] at hmeta
        cases fc with
        | corrupt =>
          exact ⟨_, rfl, rfl⟩
        | json j =>
          cases j with
          | obj m0 =>
            exact ⟨_, rfl, rfl⟩
          | null => exact Bool.noConfusion hmeta
          | bool b => exact Bool.noConfusion hmeta
          | num q0 => exact Bool.noConfusion hmeta
          | str t => exact Bool.noConfusion hmeta
          | arr xs => exact Bool.noConfusion hmeta
    obtain ⟨s', hco, hfile⟩ := hcommit
    refine ⟨⟨?_, fun hc => absurd hc (by simp [hn, hp])⟩, ?_, ?_, ?_⟩
    · rintro ⟨msg, s2, h⟩
      rw [hco] at h
      exact CommitResult.noConfusion h
    · intro msg s2 h
      rw [hco] at h
      exact absurd h (fun e => CommitResult.noConfusion e)
    · rw [hco]
      exact fun e => CommitResult.noConfusion e
    · intro _ _
      exact ⟨s', d, hco, hd, hfile⟩

/-- Witness for C1 at a stored document with both required fields present. -/
theorem claim_C1_commit_validation_witness :
    ((get_onboarding (Store.mk [] [] [("p", .json (.obj obA))]) "p").2 = Json.obj obA ∧
     oWF obA = true ∧
     metaWF (Store.mk [] [] [("p", .json (.obj obA))]) "p" = true) ∧
    (((∃ msg s2, commit_onboarding (Store.mk [] [] [("p", .json (.obj obA))]) "p" "t" =
         .validationError msg s2) ↔
       (pyTrim (strField2 obA "identity" "name") = "" ∨
        pyTrim (strField2 obA "intent" "problem_statement") = "")) ∧
     (∀ msg s2, commit_onboarding (Store.mk [] [] [("p", .json (.obj obA))]) "p" "t" =
         .validationError msg s2 →
       msg = "Missing required: " ++ joinComma
         ((if pyTrim (strField2 obA "identity" "name") = "" then ["identity.name"] else []) ++
          (if pyTrim (strField2 obA "intent" "problem_statement") = ""
           then ["intent.problem_statement"] else []))) ∧
     commit_onboarding (Store.mk [] [] [("p", .json (.obj obA))]) "p" "t" ≠ .crash ∧
     (pyTrim (strField2 obA "identity" "name") ≠ "" →
      pyTrim (strField2 obA "intent" "problem_statement") ≠ "" →
        ∃ s' d, commit_onboarding (Store.mk [] [] [("p", .json (.obj obA))]) "p" "t" =
            .ok s' (aset obA "derived" (.obj d)) ∧
          compute_derived obA = some d ∧
          s'.onboardingFile = aset (Store.mk [] [] [("p", .json (.obj obA))]).onboardingFile "p"
            (.json (.obj (aset obA "derived" (.obj d)))))) :=
  ⟨⟨rfl, by decide, rfl⟩,
   claim_C1_commit_validation (Store.mk [] [] [("p", .json (.obj obA))]) "p" "t" obA
     rfl (by decide) rfl⟩

/-- On a string-or-absent field, the Python value `ob.get(k1, {}).get(k2)`
is either `None` (and the string view is empty) or the stored string. -/
theorem jsonFieldD_null_cases (ob : List (String × Json)) (k1 k2 : String)
    (h : objOrAbsentP ob k1 (fun m => strOrAbsent m k2) = true) :
    (jsonFieldD ob k1 k2 .null = .null ∧ strField2 ob k1 k2 = "") ∨
    jsonFieldD ob k1 k2 .null = .str (strField2 ob k1 k2) := by
  unfold objOrAbsentP at h
  cases hx : alookup ob k1 with
  | none =>
    left
    constructor
    · unfold jsonFieldD
      rw [hx]
    · unfold strField2 jsonFieldD
      rw [hx]
  | some v =>
    rw [hx] at h
    cases v with
    | obj m =>
      dsimp only at h
      unfold strOrAbsent at h
      rw [show jsonFieldD ob k1 k2 Json.null = getD m k2 Json.null from by
            unfold jsonFieldD; rw [hx],
          show strField2 ob k1 k2 =
              (match getD m k2 (.str "") with | Json.str s => s | _ => "") from by
            unfold strField2 jsonFieldD; rw [hx]]
      unfold getD
      cases hy : alookup m k2 with
      | none => exact Or.inl ⟨rfl, rfl⟩
      | some w =>
        rw [hy] at h
        cases w with
        | str t => exact Or.inr rfl
        | null => exact Bool.noConfusion h
        | bool b => exact Bool.noConfusion h
        | num q0 => exact Bool.noConfusion h
        | arr xs => exact Bool.noConfusion h
        | obj mm => exact Bool.noConfusion h
    | null => exact Bool.noConfusion h
    | bool b => exact Bool.noConfusion h
    | num q0 => exact Bool.noConfusion h
    | str t => exact Bool.noConfusion h
    | arr xs => exact Bool.noConfusion h

theorem pyTrim_empty : pyTrim "" = "" := rfl

theorem strField2_ne_of_trim_ne (ob : List (String × Json)) (k1 k2 : String)
    (h : pyTrim (strField2 ob k1 k2) ≠ "") : strField2 ob k1 k2 ≠ "" := by
  intro e
  rw [e] at h
  exact h pyTrim_empty

/-- C6 — on every successful commit (of a well-formed stored document), the
Project record is rewritten with: `name` set from `identity.name` (present
and non-empty, since validation passed), `description` set to the first
non-empty of `identity.one_line`, then `intent.north_star`, then the prior
description, and a refreshed `updated_at`. -/
theorem claim_C6_commit_syncs_project (s : Store) (pid now : String)
    (s' : Store) (doc : List (String × Json))
    (h : commit_onboarding s pid now = .ok s' doc)
    (ob : List (String × Json)) (hob : (get_onboarding s pid).2 = Json.obj ob)
    (hwf : oWF ob = true) :
    ∃ m, (match (alookup s.projectFile pid : Option FileContent) with
          | some (.json (.obj m0)) => some m0
          | some (.json _) => none
          | some .corrupt => some [("id", Json.str pid)]
          | none => some [("id", Json.str pid)]) = some m ∧
      ∃ m2, s'.projectFile = aset s.projectFile pid (.json (.obj m2)) ∧
        alookup m2 "updated_at" = some (.str now) ∧
        alookup m2 "name" = some (.str (strField2 ob "identity" "name")) ∧
        alookup m2 "description" = some
          (if strField2 ob "identity" "one_line" = "" then
             (if strField2 ob "intent" "north_star" = "" then
                getD m "description" (.str "")
              else .str (strField2 ob "intent" "north_star"))
           else .str (strField2 ob "identity" "one_line")) := by
  obtain ⟨ob0, nameT, psT, d, m, nameJ, oneLineJ, nsJ, hob0, hname, hps, hn, hp,
    hd, hdoc, hm, hnameJ, holJ, hnsJ, -, -, hpf⟩ := commit_ok_inv s pid now s' doc h
  obtain rfl : ob = ob0 := by
    rw [hob] at hob0
    injection hob0
  obtain ⟨h1, h2, -, -, -, -⟩ := oWF_parts ob hwf
  have hnm : objOrAbsentP ob "identity" (fun idm => strOrAbsent idm "name") = true :=
    objOrAbsentP_mono _ _ _ _ (fun mm hm0 => by
      simp only [Bool.and_eq_true] at hm0; tauto) h1
  have hol : objOrAbsentP ob "identity" (fun idm => strOrAbsent idm "one_line") = true :=
    objOrAbsentP_mono _ _ _ _ (fun mm hm0 => by
      simp only [Bool.and_eq_true] at hm0; tauto) h1
  have hns : objOrAbsentP ob "intent" (fun it => strOrAbsent it "north_star") = true :=
    objOrAbsentP_mono _ _ _ _ (fun mm hm0 => by
      simp only [Bool.and_eq_true] at hm0; tauto) h2
  have htriv1 : objOrAbsentP ob "identity" (fun _ => true) = true :=
    objOrAbsentP_mono _ _ _ _ (fun _ _ => rfl) h1
  have htriv2 : objOrAbsentP ob "intent" (fun _ => true) = true :=
    objOrAbsentP_mono _ _ _ _ (fun _ _ => rfl) h2
  -- identify the three json values pulled for the summary
  have enameJ : nameJ = jsonFieldD ob "identity" "name" Json.null := by
    have e := pyGet_chain ob "identity" "name" Json.null htriv1
    rw [hnameJ] at e
    exact Option.some.inj e
  have eolJ : oneLineJ = jsonFieldD ob "identity" "one_line" Json.null := by
    have e := pyGet_chain ob "identity" "one_line" Json.null htriv1
    rw [holJ] at e
    exact Option.some.inj e
  have ensJ : nsJ = jsonFieldD ob "intent" "north_star" Json.null := by
    have e := pyGet_chain ob "intent" "north_star" Json.null htriv2
    rw [hnsJ] at e
    exact Option.some.inj e
  -- validation passed, so identity.name is a present non-empty string
  have enameT : nameT = pyTrim (strField2 ob "identity" "name") := by
    have := chain_strip ob "identity" "name" hnm
    rw [hname] at this
    exact Option.some.inj this
  have hnmne : strField2 ob "identity" "name" ≠ "" :=
    strField2_ne_of_trim_ne ob "identity" "name" (enameT ▸ hn)
  have hnameval : pyOr nameJ (getD m "name" Json.null) =
      .str (strField2 ob "identity" "name") := by
    rcases jsonFieldD_null_cases ob "identity" "name" hnm with ⟨e1, e2⟩ | e1
    · exact absurd e2 hnmne
    · rw [enameJ, e1]
      unfold pyOr pyBool
      rw [if_pos (by simpa using hnmne)]
  have hdescval : pyOr oneLineJ (pyOr nsJ (getD m "description" (.str ""))) =
      (if strField2 ob "identity" "one_line" = "" then
         (if strField2 ob "intent" "north_star" = "" then
            getD m "description" (.str "")
          else .str (strField2 ob "intent" "north_star"))
       else .str (strField2 ob "identity" "one_line")) := by
    have hinner : pyOr nsJ (getD m "description" (.str "")) =
        (if strField2 ob "intent" "north_star" = "" then
           getD m "description" (.str "")
         else .str (strField2 ob "intent" "north_star")) := by
      rcases jsonFieldD_null_cases ob "intent" "north_star" hns with ⟨e1, e2⟩ | e1
      · rw [ensJ, e1, e2]
        unfold pyOr pyBool
        rw [if_neg (by simp), if_pos rfl]
      · rw [ensJ, e1]
        by_cases hz : strField2 ob "intent" "north_star" = ""
        · rw [hz]
          unfold pyOr pyBool
          rw [if_neg (by simp), if_pos rfl]
        · unfold pyOr pyBool
          rw [if_pos (by simpa using hz), if_neg hz]
    rcases jsonFieldD_null_cases ob "identity" "one_line" hol with ⟨e1, e2⟩ | e1
    · rw [eolJ, e1, e2]
      unfold pyOr pyBool
      rw [if_neg (by simp), if_pos rfl]
      exact hinner
    · rw [eolJ, e1]
      by_cases hz : strField2 ob "identity" "one_line" = ""
      · rw [hz]
        unfold pyOr pyBool
        rw [if_neg (by simp), if_pos rfl]
        exact hinner
      · unfold pyOr pyBool
        rw [if_pos (by simpa using hz), if_neg hz]
  refine ⟨m, hm, _, hpf, ?_, ?_, ?_⟩
  · rw [alookup_aset_self]
  · rw [alookup_aset_ne _ _ _ _ (by decide), alookup_aset_ne _ _ _ _ (by decide),
        alookup_aset_self, hnameval]
  · rw [alookup_aset_ne _ _ _ _ (by decide), alookup_aset_self, hdescval]

theorem commit_obG_eval :
    commit_onboarding (Store.mk [] [("p", .json (.obj mG))] [("p", .json (.obj obG))])
        "p" "t" =
      CommitResult.ok
        (Store.mk ["p"]
          [("p", .json (.obj [("id", Json.str "p"), ("name", Json.str "A"),
                              ("description", Json.str "Grow retention"),
                              ("updated_at", Json.str "t")]))]
          [("p", .json (.obj (obG ++ [("derived", Json.obj dG)])))])
        (obG ++ [("derived", Json.obj dG)]) := by
  have hA : pyTrim "A" = "A" := rfl
  have hB : pyTrim "B" = "B" := rfl
  have hG : pyTrim "Grow retention" = "Grow retention" := rfl
  have hr : round2 (1 / 2) = 1/2 := by with_unfolding_all rfl
  simp [commit_onboarding, get_onboarding, project_dir, alookup, getD, pyGet, pyStrip,
        pyOr, pyBool, obG, mG, dG, joinComma, aset, setdefault, compute_derived,
        coveragePoints, point1, point2, point3, point4, point5, point6, hasWalk,
        pyLen, hA, hB, hG]
  norm_num [hr]

/-- Witness for C6 at the spec scenario: `one_line` empty, `north_star`
`"Grow retention"`, prior description `"old"`; the synced description is
`"Grow retention"`. -/
theorem claim_C6_commit_syncs_project_witness :
    (commit_onboarding (Store.mk [] [("p", .json (.obj mG))] [("p", .json (.obj obG))])
        "p" "t" =
      CommitResult.ok
        (Store.mk ["p"]
          [("p", .json (.obj [("id", Json.str "p"), ("name", Json.str "A"),
                              ("description", Json.str "Grow retention"),
                              ("updated_at", Json.str "t")]))]
          [("p", .json (.obj (obG ++ [("derived", Json.obj dG)])))])
        (obG ++ [("derived", Json.obj dG)]) ∧
     (get_onboarding (Store.mk [] [("p", .json (.obj mG))] [("p", .json (.obj obG))]) "p").2 =
       Json.obj obG ∧
     oWF obG = true) ∧
    (∃ m, (match (alookup (Store.mk [] [("p", .json (.obj mG))]
              [("p", .json (.obj obG))]).projectFile "p" : Option FileContent) with
          | some (.json (.obj m0)) => some m0
          | some (.json _) => none
          | some .corrupt => some [("id", Json.str "p")]
          | none => some [("id", Json.str "p")]) = some m ∧
      ∃ m2, (Store.mk ["p"]
          [("p", .json (.obj [("id", Json.str "p"), ("name", Json.str "A"),
                              ("description", Json.str "Grow retention"),
                              ("updated_at", Json.str "t")]))]
          [("p", .json (.obj (obG ++ [("derived", Json.obj dG)])))]).projectFile =
            aset (Store.mk [] [("p", .json (.obj mG))]
              [("p", .json (.obj obG))]).projectFile "p" (.json (.obj m2)) ∧
        alookup m2 "updated_at" = some (.str "t") ∧
        alookup m2 "name" = some (.str (strField2 obG "identity" "name")) ∧
        alookup m2 "description" = some
          (if strField2 obG "identity" "one_line" = "" then
             (if strField2 obG "intent" "north_star" = "" then
                getD m "description" (.str "")
              else .str (strField2 obG "intent" "north_star"))
           else .str (strField2 obG "identity" "one_line"))) :=
  ⟨⟨commit_obG_eval, rfl, by decide⟩,
   claim_C6_commit_syncs_project _ "p" "t" _ _ commit_obG_eval obG rfl (by decide)⟩

/-! ### Listing: C5 -/

theorem alookup_some_mem {β : Type} (l : List (String × β)) (k : String) (v : β)
    (h : alookup l k = some v) : (k, v) ∈ l := by
  induction l with
  | nil => exact Option.noConfusion h
  | cons kv rest ih =>
    obtain ⟨k0, w⟩ := kv
    unfold alookup at h
    by_cases he : k0 = k
    · rw [if_pos he] at h
      subst he
      rw [Option.some.injEq] at h
      subst h
      exact List.mem_cons_self _ _
    · rw [if_neg he] at h
      exact List.mem_cons_of_mem _ (ih h)

theorem alookup_some_mem_keys {β : Type} (l : List (String × β)) (k : String) (v : β)
    (h : alookup l k = some v) : k ∈ l.map Prod.fst := by
  exact List.mem_map.mpr ⟨(k, v), alookup_some_mem l k v h, rfl⟩

theorem attachKeys_some (l : List (List (String × Json)))
    (h : ∀ m ∈ l, (sort_key m).isSome = true) :
    ∃ ks, attachKeys l = some ks ∧ ks.map Prod.snd = l ∧
      ∀ p ∈ ks, sort_key p.2 = some p.1 := by
  induction l with
  | nil => exact ⟨[], rfl, rfl, by simp⟩
  | cons m ms ih =>
    obtain ⟨k, hk⟩ := Option.isSome_iff_exists.mp (h m (List.mem_cons_self _ _))
    obtain ⟨ks, hks, hmap, hall⟩ := ih (fun x hx => h x (List.mem_cons_of_mem _ hx))
    refine ⟨(k, m) :: ks, ?_, by simp [hmap], ?_⟩
    · unfold attachKeys
      rw [hk, hks]
    · intro p hp
      rcases List.mem_cons.mp hp with e | hmem
      · subst e
        exact hk
      · exact hall p hmem

theorem insertSorted_perm {α : Type} (le : α → α → Bool) (x : α) (l : List α) :
    (insertSorted le x l).Perm (x :: l) := by
  induction l with
  | nil => exact List.Perm.refl _
  | cons y ys ih =>
    unfold insertSorted
    by_cases hc : le x y
    · rw [if_pos hc]
    · rw [if_neg hc]
      exact (List.Perm.cons y ih).trans (List.Perm.swap x y ys)

theorem sortBy_perm {α : Type} (le : α → α → Bool) (l : List α) :
    (sortBy le l).Perm l := by
  induction l with
  | nil => exact List.Perm.refl _
  | cons x xs ih =>
    unfold sortBy
    exact (insertSorted_perm le x (sortBy le xs)).trans (List.Perm.cons x ih)

theorem insertSorted_pairwise {α : Type} (le : α → α → Bool)
    (htot : ∀ a b, le a b = true ∨ le b a = true)
    (htrans : ∀ a b c, le a b = true → le b c = true → le a c = true)
    (x : α) (l : List α) (h : l.Pairwise (fun a b => le a b = true)) :
    (insertSorted le x l).Pairwise (fun a b => le a b = true) := by
  induction l with
  | nil => simp [insertSorted]
  | cons y ys ih =>
    rw [List.pairwise_cons] at h
    obtain ⟨hy, hys⟩ := h
    unfold insertSorted
    by_cases hc : le x y
    · rw [if_pos hc]
      rw [List.pairwise_cons]
      refine ⟨?_, List.pairwise_cons.mpr ⟨hy, hys⟩⟩
      intro z hz
      rcases List.mem_cons.mp hz with e | hmem
      · subst e
        exact hc
      · exact htrans x y z hc (hy z hmem)
    · rw [if_neg hc]
      rw [List.pairwise_cons]
      refine ⟨?_, ih hys⟩
      intro z hz
      have hz' := (insertSorted_perm le x ys).mem_iff.mp hz
      rcases List.mem_cons.mp hz' with e | hmem
      · rcases htot x y with h1 | h1
        · exact absurd h1 hc
        · exact e ▸ h1
      · exact hy z hmem

theorem sortBy_pairwise {α : Type} (le : α → α → Bool)
    (htot : ∀ a b, le a b = true ∨ le b a = true)
    (htrans : ∀ a b c, le a b = true → le b c = true → le a c = true)
    (l : List α) : (sortBy le l).Pairwise (fun a b => le a b = true) := by
  induction l with
  | nil => simp [sortBy]
  | cons x xs ih =>
    unfold sortBy
    exact insertSorted_pairwise le htot htrans x (sortBy le xs) ih

theorem keyLe_total (a b : Int × String) : keyLe a b = true ∨ keyLe b a = true := by
  unfold keyLe
  simp only [Bool.or_eq_true, Bool.and_eq_true, decide_eq_true_eq]
  rcases lt_trichotomy a.1 b.1 with h | h | h
  · exact Or.inl (Or.inl h)
  · rcases le_total a.2 b.2 with h2 | h2
    · exact Or.inl (Or.inr ⟨h, h2⟩)
    · exact Or.inr (Or.inr ⟨h.symm, h2⟩)
  · exact Or.inr (Or.inl h)

theorem keyLe_trans (a b c : Int × String) (h1 : keyLe a b = true)
    (h2 : keyLe b c = true) : keyLe a c = true := by
  unfold keyLe at h1 h2 ⊢
  simp only [Bool.or_eq_true, Bool.and_eq_true, decide_eq_true_eq] at h1 h2 ⊢
  rcases h1 with h1 | ⟨e1, l1⟩
  · rcases h2 with h2 | ⟨e2, l2⟩
    · exact Or.inl (lt_trans h1 h2)
    · exact Or.inl (e2 ▸ h1)
  · rcases h2 with h2 | ⟨e2, l2⟩
    · exact Or.inl (e1 ▸ h2)
    · exact Or.inr ⟨e1.trans e2, le_trans l1 l2⟩

/-- Counterexample to C5 as stated: a metadata file that is present and
parsable (here the valid JSON document `[]`) is nevertheless skipped by
`list_projects` — the per-entry `meta.setdefault` raises inside the same
`try`, so only files parsing to a JSON object are returned. -/
theorem claim_C5_counterexample :
    alookup (Store.mk ["p1"] [("p1", FileContent.json (Json.arr []))] []).projectFile "p1" =
      some (FileContent.json (Json.arr [])) ∧
    list_projects (Store.mk ["p1"] [("p1", FileContent.json (Json.arr []))] []) =
      some [] :=
  ⟨rfl, rfl⟩

/-- C5 (amended) — `list_projects` returns exactly the projects whose
metadata file is present and parses to a JSON object — silently skipping
entries whose file is missing, unparsable, or parses to a non-object, never
failing the whole operation because of one such entry — sorted descending
by `updated_at` (a missing timestamp defaulting to the fixed epoch), ties
broken by ascending name.  The hypothesis asks every returned entry's sort
key to be well defined (string `updated_at` in the aware ISO format the
store writes, string name), which is what the code itself requires to sort. -/
theorem claim_C5_list_projects (s : Store)
    (hkeys : s.projectFile.all (fun kv =>
       match kv.2 with
       | .json (.obj m) => (sort_key (setdefault m "id" (.str kv.1))).isSome
       | _ => true) = true) :
    ∃ out, list_projects s = some out ∧
      out.Perm ((s.projectFile.map Prod.fst).dedup.filterMap (fun pid =>
        match alookup s.projectFile pid with
        | some (.json (.obj m)) => some (setdefault m "id" (.str pid))
        | _ => none)) ∧
      (∀ pid m, alookup s.projectFile pid = some (.json (.obj m)) →
         setdefault m "id" (.str pid) ∈ out) ∧
      (∀ e, e ∈ out → ∃ pid m, alookup s.projectFile pid = some (.json (.obj m)) ∧
         e = setdefault m "id" (.str pid)) ∧
      out.Pairwise (fun m1 m2 => ∀ k1 k2, sort_key m1 = some k1 →
        sort_key m2 = some k2 → keyLe k1 k2 = true) := by
  have hentry : ∀ m ∈ (globOrder s).filterMap (fun pid =>
      match alookup s.projectFile pid with
      | some (.json (.obj m)) => some (setdefault m "id" (.str pid))
      | _ => none), (sort_key m).isSome = true := by
    intro m hm
    obtain ⟨pid, hpid, hproc⟩ := List.mem_filterMap.mp hm
    cases hl : alookup s.projectFile pid with
    | none =>
      rw [hl] at hproc
      exact Option.noConfusion hproc
    | some fc =>
      rw [hl] at hproc
      cases fc with
      | corrupt => exact Option.noConfusion hproc
      | json j =>
        cases j with
        | obj m0 =>
          rw [Option.some.injEq] at hproc
          subst hproc
          have hmem := alookup_some_mem _ _ _ hl
          have := List.all_eq_true.mp hkeys _ hmem
          exact this
        | null => exact Option.noConfusion hproc
        | bool b => exact Option.noConfusion hproc
        | num q0 => exact Option.noConfusion hproc
        | str t => exact Option.noConfusion hproc
        | arr xs => exact Option.noConfusion hproc
  obtain ⟨ks, hks, hmap, hall⟩ := attachKeys_some _ hentry
  have hlp : list_projects s =
      some ((sortBy (fun a b => keyLe a.1 b.1) ks).map Prod.snd) := by
    unfold list_projects
    dsimp only
    rw [hks]
    rfl
  have hsortperm : ((sortBy (fun a b => keyLe a.1 b.1) ks).map Prod.snd).Perm
      (ks.map Prod.snd) :=
    (sortBy_perm (fun a b => keyLe a.1 b.1) ks).map Prod.snd
  have hglob : (globOrder s).Perm (s.projectFile.map Prod.fst).dedup :=
    sortBy_perm _ _
  have hperm : ((sortBy (fun a b => keyLe a.1 b.1) ks).map Prod.snd).Perm
      ((s.projectFile.map Prod.fst).dedup.filterMap (fun pid =>
        match alookup s.projectFile pid with
        | some (.json (.obj m)) => some (setdefault m "id" (.str pid))
        | _ => none)) := by
    rw [hmap] at hsortperm
    exact hsortperm.trans (hglob.filterMap _)
  refine ⟨_, hlp, hperm, ?_, ?_, ?_⟩
  · intro pid m hl
    rw [hperm.mem_iff]
    refine List.mem_filterMap.mpr ⟨pid, ?_, ?_⟩
    · exact List.mem_dedup.mpr (alookup_some_mem_keys _ _ _ hl)
    · rw [hl]
  · intro e he
    have he' := hperm.mem_iff.mp he
    obtain ⟨pid, hpid, hproc⟩ := List.mem_filterMap.mp he'
    cases hl : alookup s.projectFile pid with
    | none =>
      rw [hl] at hproc
      exact Option.noConfusion hproc
    | some fc =>
      rw [hl] at hproc
      cases fc with
      | corrupt => exact Option.noConfusion hproc
      | json j =>
        cases j with
        | obj m0 =>
          rw [Option.some.injEq] at hproc
          exact ⟨pid, m0, hl, hproc.symm⟩
        | null => exact Option.noConfusion hproc
        | bool b => exact Option.noConfusion hproc
        | num q0 => exact Option.noConfusion hproc
        | str t => exact Option.noConfusion hproc
        | arr xs => exact Option.noConfusion hproc
  · have hpw : (sortBy (fun a b => keyLe a.1 b.1) ks).Pairwise
        (fun a b => keyLe a.1 b.1 = true) :=
      sortBy_pairwise _ (fun a b => keyLe_total a.1 b.1)
        (fun a b c => keyLe_trans a.1 b.1 c.1) ks
    have hallsorted : ∀ p ∈ sortBy (fun a b => keyLe a.1 b.1) ks,
        sort_key p.2 = some p.1 := by
      intro p hp
      exact hall p ((sortBy_perm _ ks).mem_iff.mp hp)
    rw [List.pairwise_map]
    refine hpw.imp_of_mem ?_
    intro a b ha hb hle k1 k2 hk1 hk2
    rw [hallsorted a ha] at hk1
    rw [hallsorted b hb] at hk2
    rw [Option.some.injEq] at hk1 hk2
    rw [← hk1, ← hk2]
    exact hle

/-- Witness for the amended C5: two valid projects, one corrupt file, one
non-object file; the two valid ones come back, most recently updated
first. -/
theorem claim_C5_list_projects_witness :
    ((Store.mk []
        [("b", .json (.obj [("name", Json.str "BB"),
            ("updated_at", Json.str "2024-01-02T00:00:00+00:00")])),
         ("a", .json (.obj [("name", Json.str "AA"),
            ("updated_at", Json.str "2024-01-01T00:00:00+00:00")])),
         ("c", .corrupt),
         ("d", .json (.arr []))] [] : Store).projectFile.all (fun kv =>
       match kv.2 with
       | .json (.obj m) => (sort_key (setdefault m "id" (.str kv.1))).isSome
       | _ => true) = true) ∧
    (∃ out, list_projects (Store.mk []
        [("b", .json (.obj [("name", Json.str "BB"),
            ("updated_at", Json.str "2024-01-02T00:00:00+00:00")])),
         ("a", .json (.obj [("name", Json.str "AA"),
            ("updated_at", Json.str "2024-01-01T00:00:00+00:00")])),
         ("c", .corrupt),
         ("d", .json (.arr []))] []) = some out ∧
      out.Perm (((Store.mk []
        [("b", .json (.obj [("name", Json.str "BB"),
            ("updated_at", Json.str "2024-01-02T00:00:00+00:00")])),
         ("a", .json (.obj [("name", Json.str "AA"),
            ("updated_at", Json.str "2024-01-01T00:00:00+00:00")])),
         ("c", .corrupt),
         ("d", .json (.arr []))] [] : Store).projectFile.map Prod.fst).dedup.filterMap
           (fun pid =>
        match alookup (Store.mk []
        [("b", .json (.obj [("name", Json.str "BB"),
            ("updated_at", Json.str "2024-01-02T00:00:00+00:00")])),
         ("a", .json (.obj [("name", Json.str "AA"),
            ("updated_at", Json.str "2024-01-01T00:00:00+00:00")])),
         ("c", .corrupt),
         ("d", .json (.arr []))] [] : Store).projectFile pid with
        | some (.json (.obj m)) => some (setdefault m "id" (.str pid))
        | _ => none)) ∧
      (∀ pid m, alookup (Store.mk []
        [("b", .json (.obj [("name", Json.str "BB"),
            ("updated_at", Json.str "2024-01-02T00:00:00+00:00")])),
         ("a", .json (.obj [("name", Json.str "AA"),
            ("updated_at", Json.str "2024-01-01T00:00:00+00:00")])),
         ("c", .corrupt),
         ("d", .json (.arr []))] [] : Store).projectFile pid = some (.json (.obj m)) →
         setdefault m "id" (.str pid) ∈ out) ∧
      (∀ e, e ∈ out → ∃ pid m, alookup (Store.mk []
        [("b", .json (.obj [("name", Json.str "BB"),
            ("updated_at", Json.str "2024-01-02T00:00:00+00:00")])),
         ("a", .json (.obj [("name", Json.str "AA"),
            ("updated_at", Json.str "2024-01-01T00:00:00+00:00")])),
         ("c", .corrupt),
         ("d", .json (.arr []))] [] : Store).projectFile pid =
           some (.json (.obj m)) ∧ e = setdefault m "id" (.str pid)) ∧
      out.Pairwise (fun m1 m2 => ∀ k1 k2, sort_key m1 = some k1 →
        sort_key m2 = some k2 → keyLe k1 k2 = true)) :=
  ⟨rfl, claim_C5_list_projects _ rfl⟩

end PMA
